import Mathlib

/-!
Response-graph build and exception translation of `MoneroWalletJni.cpp`.

A shallow embedding of the bridge code in `src/main/cpp/MoneroWalletJni.cpp`.

* Objects that the C++ code reaches through `shared_ptr` are modelled by their
  identity (a pointer) and a heap that maps identities to field values, because
  the graph build compares blocks by pointer (`unordered_set<shared_ptr<..>>`)
  and mutates transactions and blocks in place.
* A C++ exception is modelled by the catch clauses it matches and its `what()`
  text; a function that may throw returns `Except NativeFailure _`.
* The listener adapter, the thread attachment and the handle operations are functions
  on explicit states that also return the sequence of the calls they make; the methods
  of the adapter run under one mutex and are taken one at a time.
-/

namespace MoneroWalletJni

/-! ## Data model -/

/-- Identity of a `MoneroBlock` object, as held by a `shared_ptr<MoneroBlock>`.
Blocks handed out by the wallet engine and blocks created by the bridge with
`new MoneroBlock()` live at different addresses. -/
inductive BlockPtr where
  | engine (addr : Nat)
  | fresh (k : Nat)
  deriving DecidableEq, Repr

/-- The fields of `MoneroBlock` that the bridge reads or writes: `height` and the
list `txs` of transaction pointers. A default-constructed block has neither. -/
structure MoneroBlock where
  height : Option Nat
  txs : List Nat
  deriving DecidableEq, Repr

/-- Value of `MoneroBlock()`, the default constructor. -/
def MoneroBlock.default : MoneroBlock := { height := none, txs := [] }

/-- The object graph as the wallet engine returns it: `txBlock t` is `tx->block` of the
transaction at address `t` (`none` is `boost::none`), `block a` is the block at address `a`. -/
structure EngineHeap where
  txBlock : Nat → Option Nat
  block : Nat → MoneroBlock

/-- The object graph while a bridge call runs. `allocated` counts the blocks the call
has created with `new MoneroBlock()`. -/
structure Heap where
  txBlock : Nat → Option BlockPtr
  block : BlockPtr → MoneroBlock
  allocated : Nat

/-- The heap a bridge call starts from: the engine's objects, nothing allocated. -/
def Heap.ofEngine (e : EngineHeap) : Heap where
  txBlock := fun t => (e.txBlock t).map BlockPtr.engine
  block := fun b =>
    match b with
    | BlockPtr.engine a => e.block a
    | BlockPtr.fresh _ => MoneroBlock.default
  allocated := 0

/-- The expression `shared_ptr<MoneroBlock>(new MoneroBlock())`: a block at an address not used before. -/
def Heap.newBlock (h : Heap) : BlockPtr × Heap :=
  (BlockPtr.fresh h.allocated,
   { h with
     block := fun b => if b = BlockPtr.fresh h.allocated then MoneroBlock.default else h.block b
     allocated := h.allocated + 1 })

/-- The assignment `tx->block = b`. -/
def Heap.setTxBlock (h : Heap) (tx : Nat) (b : BlockPtr) : Heap :=
  { h with txBlock := fun t => if t = tx then some b else h.txBlock t }

/-- The call `b->txs.push_back(tx)`. -/
def Heap.pushTx (h : Heap) (b : BlockPtr) (tx : Nat) : Heap :=
  { h with
    block := fun c => if c = b then { h.block b with txs := (h.block b).txs ++ [tx] } else h.block c }

/-- A `MoneroTransfer`, of which the bridge reads only `transfer->tx`. -/
structure MoneroTransfer where
  tx : Nat
  deriving DecidableEq, Repr

/-- A `MoneroOutputWallet`, of which the bridge reads only `output->tx`. -/
structure MoneroOutputWallet where
  tx : Nat
  deriving DecidableEq, Repr

/-! ## Graph build of `getTxsJni` and `getTransfersJni` (lines 783-798, 830-846) -/

/-- Local variables of the graph build together with the heap. -/
structure GraphState where
  heap : Heap
  unconfirmedBlock : Option BlockPtr
  blocks : List BlockPtr
  seenBlockPtrs : List BlockPtr

/-- State before the loop: `unconfirmedBlock = nullptr`, empty `blocks`, empty `seenBlockPtrs`. -/
def GraphState.init (e : EngineHeap) : GraphState where
  heap := Heap.ofEngine e
  unconfirmedBlock := none
  blocks := []
  seenBlockPtrs := []

/-- The branch `if (tx->block == boost::none) ...`: create the placeholder block on first
need, point the transaction to it and append the transaction to its `txs`. -/
def attachUnconfirmed (s : GraphState) (tx : Nat) : GraphState :=
  match s.heap.txBlock tx with
  | some _ => s
  | none =>
    let r : BlockPtr × Heap :=
      match s.unconfirmedBlock with
      | none => s.heap.newBlock
      | some ub => (ub, s.heap)
    { s with
      heap := (r.2.setTxBlock tx r.1).pushTx r.1 tx
      unconfirmedBlock := some r.1 }

/-- The lookup in `seenBlockPtrs` and, when the block is new, `insert` and `push_back`.
`tx->block.get()` is read from the heap; on an empty optional nothing is done. -/
def visitBlock (s : GraphState) (tx : Nat) : GraphState :=
  match s.heap.txBlock tx with
  | none => s
  | some b =>
    if b ∈ s.seenBlockPtrs then s
    else { s with seenBlockPtrs := b :: s.seenBlockPtrs, blocks := s.blocks ++ [b] }

/-- One iteration of the loop over `txs` in `getTxsJni`. -/
def getTxsStep (s : GraphState) (tx : Nat) : GraphState :=
  visitBlock (attachUnconfirmed s tx) tx

/-- The loop of `getTxsJni` over the transactions the engine returned. -/
def getTxsBuild (e : EngineHeap) (txs : List Nat) : GraphState :=
  txs.foldl getTxsStep (GraphState.init e)

/-- One iteration of the loop over `transfers` in `getTransfersJni`. -/
def getTransfersStep (s : GraphState) (transfer : MoneroTransfer) : GraphState :=
  let tx := transfer.tx
  visitBlock (attachUnconfirmed s tx) tx

/-- The loop of `getTransfersJni` over the transfers the engine returned. -/
def getTransfersBuild (e : EngineHeap) (transfers : List MoneroTransfer) : GraphState :=
  transfers.foldl getTransfersStep (GraphState.init e)

/-- What `MoneroUtils::toPropertyTree(blocks)` sees for a vector of block pointers:
the pointed-to blocks as they are when the loop has finished. -/
def GraphState.serialized (s : GraphState) : List MoneroBlock :=
  s.blocks.map s.heap.block

/-! ## Graph build of `sendSplitJni` (lines 986-1001) -/

/-- Local variables of the graph build of `sendSplitJni`; `blocks` is a
`vector<MoneroBlock>`, it holds block values. -/
structure SplitState where
  heap : Heap
  unconfirmedBlock : Option BlockPtr
  blocks : List MoneroBlock
  seenBlockPtrs : List BlockPtr

/-- State before the loop of `sendSplitJni`. -/
def SplitState.init (e : EngineHeap) : SplitState where
  heap := Heap.ofEngine e
  unconfirmedBlock := none
  blocks := []
  seenBlockPtrs := []

/-- One iteration of the loop of `sendSplitJni`; `blocks.push_back(**tx->block)` appends
a copy of the block as it is at that moment. -/
def sendSplitStep (s : SplitState) (tx : Nat) : SplitState :=
  let s1 : SplitState :=
    match s.heap.txBlock tx with
    | some _ => s
    | none =>
      let r : BlockPtr × Heap :=
        match s.unconfirmedBlock with
        | none => s.heap.newBlock
        | some ub => (ub, s.heap)
      { s with
        heap := (r.2.setTxBlock tx r.1).pushTx r.1 tx
        unconfirmedBlock := some r.1 }
  match s1.heap.txBlock tx with
  | none => s1
  | some b =>
    if b ∈ s1.seenBlockPtrs then s1
    else { s1 with seenBlockPtrs := b :: s1.seenBlockPtrs, blocks := s1.blocks ++ [s1.heap.block b] }

/-- The loop of `sendSplitJni` over the transactions the engine returned. -/
def sendSplitBuild (e : EngineHeap) (txs : List Nat) : SplitState :=
  txs.foldl sendSplitStep (SplitState.init e)

/-! ## Exceptions and the graph build of `getOutputsJni` (lines 876-887) -/

/-- A thrown C++ exception, described by the handler types it can be caught as and by
its `what()` text: `std::bad_alloc`, `std::ios_base::failure`, `std::exception`. -/
structure NativeFailure where
  isBadAlloc : Bool
  isIosFailure : Bool
  isStdException : Bool
  what : String
  deriving DecidableEq, Repr

/-- The exception `runtime_error(msg)`. -/
def runtime_error (msg : String) : NativeFailure :=
  { isBadAlloc := false, isIosFailure := false, isStdException := true, what := msg }

/-- Local variables of the graph build of `getOutputsJni`. -/
structure OutputsState where
  blocks : List MoneroBlock
  seenBlockPtrs : List Nat

/-- One iteration of the loop of `getOutputsJni`: throw when the output's transaction has
no block, otherwise record the block if its pointer is new. -/
def getOutputsStep (e : EngineHeap) (s : OutputsState) (output : MoneroOutputWallet) :
    Except NativeFailure OutputsState :=
  let tx := output.tx
  match e.txBlock tx with
  | none => Except.error (runtime_error "Need to handle unconfirmed output")
  | some b =>
    if b ∈ s.seenBlockPtrs then Except.ok s
    else Except.ok { seenBlockPtrs := b :: s.seenBlockPtrs, blocks := s.blocks ++ [e.block b] }

/-- The loop of `getOutputsJni` from a given state. -/
def getOutputsLoop (e : EngineHeap) : OutputsState → List MoneroOutputWallet → Except NativeFailure OutputsState
  | s, [] => Except.ok s
  | s, output :: rest =>
    match getOutputsStep e s output with
    | Except.error ex => Except.error ex
    | Except.ok s1 => getOutputsLoop e s1 rest

/-- The graph build of `getOutputsJni`: the block values to serialise, or the exception thrown. -/
def getOutputsBuild (e : EngineHeap) (outputs : List MoneroOutputWallet) : Except NativeFailure (List MoneroBlock) :=
  match getOutputsLoop e { blocks := [], seenBlockPtrs := [] } outputs with
  | Except.error ex => Except.error ex
  | Except.ok s => Except.ok s.blocks

/-! ## Exception translation (lines 233-249) and entry points -/

/-- A Java exception raised with `ThrowNew(jc, msg)`: the class `jc` was looked up by
name with `FindClass`. -/
structure JavaThrowable where
  className : String
  message : String
  deriving DecidableEq, Repr

/-- The function `rethrow_cpp_exception_as_java_exception`: the catch clauses are tried in
source order; `findClass` tells whether `FindClass` finds the named class, and the
result is the Java exception left pending, if any. -/
def rethrow_cpp_exception_as_java_exception (findClass : String → Bool) (ex : NativeFailure) :
    Option JavaThrowable :=
  if ex.isBadAlloc then
    if findClass "java/lang/OutOfMemoryError" then
      some { className := "java/lang/OutOfMemoryError", message := ex.what }
    else none
  else if ex.isIosFailure then
    if findClass "java/io/IOException" then
      some { className := "java/io/IOException", message := ex.what }
    else none
  else if ex.isStdException then
    if findClass "java/lang/Exception" then
      some { className := "java/lang/Exception", message := ex.what }
    else none
  else
    if findClass "java/lang/Exception" then
      some { className := "java/lang/Exception", message := "Unidentfied C++ exception" }
    else none

/-- How a JNI function ends: it returns a value, or its `catch (...)` block has run the
translator and returned 0, or a C++ exception has left the function. -/
inductive Outcome (α : Type) where
  | returned (value : α)
  | translated (pending : Option JavaThrowable)
  | escaped (ex : NativeFailure)

/-- The `container` property tree of a block query: the child `blocks` is added only
when the block list is not empty. -/
def blocksContainer (blocks : List MoneroBlock) : List (String × List MoneroBlock) :=
  if blocks.isEmpty then [] else [("blocks", blocks)]

/-- The function `Java_monero_wallet_MoneroWalletJni_getTxsJni` (lines 768-813): the whole
body stands in `try ... catch (...)`. The decoder and the engine are parameters; an
absent payload is decoded as the empty text. -/
def getTxsJni {Req : Type} (findClass : String → Bool)
    (deserializeTxRequest : String → Except NativeFailure Req)
    (getTxs : Req → Except NativeFailure (EngineHeap × List Nat))
    (jtxRequest : Option String) : Outcome (List (String × List MoneroBlock)) :=
  match deserializeTxRequest (jtxRequest.getD "") with
  | Except.error ex => Outcome.translated (rethrow_cpp_exception_as_java_exception findClass ex)
  | Except.ok txRequest =>
    match getTxs txRequest with
    | Except.error ex => Outcome.translated (rethrow_cpp_exception_as_java_exception findClass ex)
    | Except.ok r => Outcome.returned (blocksContainer (getTxsBuild r.1 r.2).serialized)

/-- The function `Java_monero_wallet_MoneroWalletJni_getOutputsJni` (lines 862-898): no
statement of the body stands in a `try`. -/
def getOutputsJni {Req : Type}
    (deserializeOutputRequest : String → Except NativeFailure Req)
    (getOutputs : Req → Except NativeFailure (EngineHeap × List MoneroOutputWallet))
    (joutputRequest : Option String) : Outcome (List (String × List MoneroBlock)) :=
  match deserializeOutputRequest (joutputRequest.getD "") with
  | Except.error ex => Outcome.escaped ex
  | Except.ok outputRequest =>
    match getOutputs outputRequest with
    | Except.error ex => Outcome.escaped ex
    | Except.ok r =>
      match getOutputsBuild r.1 r.2 with
      | Except.error ex => Outcome.escaped ex
      | Except.ok blocks => Outcome.returned (blocksContainer blocks)

/-- The function `Java_monero_wallet_MoneroWalletJni_openWalletJni` (lines 266-277): the
engine's constructor is called outside any `try`; the result is the wallet's address. -/
def openWalletJni (newWallet : String → String → Int → Except NativeFailure Nat)
    (jpath jpassword : String) (jnetworkType : Int) : Outcome Nat :=
  match newWallet jpath jpassword jnetworkType with
  | Except.error ex => Outcome.escaped ex
  | Except.ok wallet => Outcome.returned wallet

/-- The failure categories of the taxonomy of the spec (section 7). -/
inductive FailureCategory where
  | InvalidHandle
  | InvalidArgument
  | ResourceExhaustion
  | IOFailure
  | ApplicationError
  | Unknown
  deriving DecidableEq, Repr

/-- The category of a thrown exception; this definition follows the words of the spec
(sections 4.5 and 7), not code: an allocation failure is ResourceExhaustion, an I/O failure
is IOFailure, another standard exception (a failure of the engine with a message) is
ApplicationError, anything else is Unknown. -/
def specCategory (ex : NativeFailure) : FailureCategory :=
  if ex.isBadAlloc then FailureCategory.ResourceExhaustion
  else if ex.isIosFailure then FailureCategory.IOFailure
  else if ex.isStdException then FailureCategory.ApplicationError
  else FailureCategory.Unknown

/-- The class of the Java exception the translator leaves pending. -/
def hostErrorType (findClass : String → Bool) (ex : NativeFailure) : Option String :=
  (rethrow_cpp_exception_as_java_exception findClass ex).map JavaThrowable.className

/-- A Java runtime in which every class name is found. -/
def allClassesFound : String → Bool := fun _ => true

/-! ## Reference notions used to state the properties -/

/-- The elements of a list, each kept at its first occurrence only. -/
def firstOccurrences {α : Type} [DecidableEq α] : List α → List α
  | [] => []
  | a :: l => a :: (firstOccurrences l).filter (fun x => x ≠ a)

/-- The block a transaction of the engine's result ends up in: its own block, or the
first block the call allocates when it has none. -/
def blockOf (e : EngineHeap) (t : Nat) : BlockPtr :=
  match e.txBlock t with
  | some a => BlockPtr.engine a
  | none => BlockPtr.fresh 0

/-- Scenario of the spec: transactions 1 and 2 lie in the block at address 7 (height 100,
listing 1 and 2), transaction 3 has no block. -/
def scenarioHeap : EngineHeap where
  txBlock := fun t => if t = 1 ∨ t = 2 then some 7 else none
  block := fun _ => { height := some 100, txs := [1, 2] }

/-- The block-less transactions among `l`, in input order. -/
def unconfirmedTxs (e : EngineHeap) (l : List Nat) : List Nat :=
  l.filter (fun t => e.txBlock t = none)

/-- What the loop state is after the transactions `l` have been processed. -/
structure Tracks (e : EngineHeap) (l : List Nat) (s : GraphState) : Prop where
  blocks_eq : s.blocks = firstOccurrences (l.map (blockOf e))
  seen_iff : ∀ b, b ∈ s.seenBlockPtrs ↔ b ∈ s.blocks
  txBlock_mem : ∀ t, t ∈ l → s.heap.txBlock t = some (blockOf e t)
  txBlock_not_mem : ∀ t, t ∉ l → s.heap.txBlock t = (e.txBlock t).map BlockPtr.engine
  block_engine : ∀ a, s.heap.block (BlockPtr.engine a) = e.block a
  none_case : unconfirmedTxs e l = [] → s.unconfirmedBlock = none ∧ s.heap.allocated = 0
  some_case : unconfirmedTxs e l ≠ [] →
    s.unconfirmedBlock = some (BlockPtr.fresh 0) ∧ s.heap.allocated = 1 ∧
    s.heap.block (BlockPtr.fresh 0) = { height := none, txs := firstOccurrences (unconfirmedTxs e l) }

/-! ## Host string buffers (`GetStringUTFChars` / `ReleaseStringUTFChars`) -/

/-- A call on a host string: `get p` is `GetStringUTFChars` on the parameter named `p`,
`release p` is `ReleaseStringUTFChars` on it. -/
inductive BufferEvent where
  | get (param : String)
  | release (param : String)
  deriving DecidableEq, Repr

/-- The buffers acquired and not yet released after the calls `log`. -/
def outstanding (log : List BufferEvent) : List String :=
  log.foldl
    (fun held ev =>
      match ev with
      | BufferEvent.get p => held ++ [p]
      | BufferEvent.release p => held.erase p)
    []

/-- The expression `j ? env->GetStringUTFChars(j, NULL) : nullptr`: a buffer is acquired
only for a host string that is not null. -/
def getStringUTFChars (param : String) (j : Option String) : List BufferEvent :=
  if j.isSome then [BufferEvent.get param] else []

/-- The function `Java_monero_wallet_MoneroWalletJni_signJni` (lines 1171-1183): the buffer
is acquired before the `try`, released inside it after the engine call; the `catch`
block translates and returns 0. -/
def signJni (findClass : String → Bool) (sign : String → Except NativeFailure String)
    (jmsg : Option String) : List BufferEvent × Outcome String :=
  let acquired := getStringUTFChars "jmsg" jmsg
  match sign (jmsg.getD "") with
  | Except.ok signature => (acquired ++ [BufferEvent.release "jmsg"], Outcome.returned signature)
  | Except.error ex =>
    (acquired, Outcome.translated (rethrow_cpp_exception_as_java_exception findClass ex))

/-- The calls on the host string of `getTxsJni` (lines 772, 807): acquired inside the `try`,
released as the last statement but one of the `try` block. -/
def getTxsJniBuffers {Req : Type}
    (deserializeTxRequest : String → Except NativeFailure Req)
    (getTxs : Req → Except NativeFailure (EngineHeap × List Nat))
    (jtxRequest : Option String) : List BufferEvent :=
  let acquired := getStringUTFChars "jtxRequest" jtxRequest
  match deserializeTxRequest (jtxRequest.getD "") with
  | Except.error _ => acquired
  | Except.ok txRequest =>
    match getTxs txRequest with
    | Except.error _ => acquired
    | Except.ok _ => acquired ++ [BufferEvent.release "jtxRequest"]

/-- The function `Java_monero_wallet_MoneroWalletJni_importKeyImagesJni` (lines 942-963),
called with a host string that is not null: the decoder runs outside any `try`, the
engine call inside one whose `catch` returns 0, the release follows the `try`. -/
def importKeyImagesJni {Images Result : Type} (findClass : String → Bool)
    (deserializeKeyImages : String → Except NativeFailure Images)
    (importKeyImages : Images → Except NativeFailure Result)
    (jkeyImagesJson : String) : List BufferEvent × Outcome Result :=
  let acquired := [BufferEvent.get "jkeyImagesJson"]
  match deserializeKeyImages jkeyImagesJson with
  | Except.error ex => (acquired, Outcome.escaped ex)
  | Except.ok keyImages =>
    match importKeyImages keyImages with
    | Except.error ex =>
      (acquired, Outcome.translated (rethrow_cpp_exception_as_java_exception findClass ex))
    | Except.ok result =>
      (acquired ++ [BufferEvent.release "jkeyImagesJson"], Outcome.returned result)

/-- The function `Java_monero_wallet_MoneroWalletJni_getTxKeyJni` (lines 1203-1215): the
text is copied and the buffer released before the `try`. -/
def getTxKeyJni (findClass : String → Bool) (getTxKey : String → Except NativeFailure String)
    (jtxId : Option String) : List BufferEvent × Outcome String :=
  let log := getStringUTFChars "jtxId" jtxId ++ [BufferEvent.release "jtxId"]
  match getTxKey (jtxId.getD "") with
  | Except.ok key => (log, Outcome.returned key)
  | Except.error ex =>
    (log, Outcome.translated (rethrow_cpp_exception_as_java_exception findClass ex))

/-! ## Thread attachment and the listener adapter (lines 82-153) -/

/-- The constant `JNI_OK` of `jni.h`. -/
def JNI_OK : Int := 0

/-- The constant `JNI_ERR` of `jni.h`. -/
def JNI_ERR : Int := -1

/-- The constant `JNI_EDETACHED` of `jni.h`. -/
def JNI_EDETACHED : Int := -2

/-- The constant `JNI_EVERSION` of `jni.h`. -/
def JNI_EVERSION : Int := -3

/-- The calling thread as the Java runtime sees it: whether it is attached, whether the
runtime supports `JNI_VERSION_1_6`, what `AttachCurrentThread` returns when called, and
whether a Java exception is pending. -/
structure JvmThread where
  attached : Bool
  versionSupported : Bool
  attachResult : Int
  exceptionPending : Bool
  deriving DecidableEq, Repr

/-- The call `cachedJVM->GetEnv(.., JNI_VERSION_1_6)` as the JNI specification describes it. -/
def JvmThread.GetEnv (t : JvmThread) : Int :=
  if t.attached then (if t.versionSupported then JNI_OK else JNI_EVERSION) else JNI_EDETACHED

/-- The call `cachedJVM->AttachCurrentThread(..)`: the thread is attached when the call
returns 0. -/
def JvmThread.AttachCurrentThread (t : JvmThread) : JvmThread :=
  if t.attachResult = 0 then { t with attached := true } else t

/-- The call `cachedJVM->DetachCurrentThread()`. -/
def JvmThread.DetachCurrentThread (t : JvmThread) : JvmThread :=
  { t with attached := false }

/-- An argument of a call into the host: a `jlong`, a `jdouble` (by its bit pattern) or a
`jstring` (by its text). -/
inductive JValue where
  | long (v : Int)
  | double (bits : Nat)
  | string (text : String)
  deriving DecidableEq, Repr

/-- What a delivery or a detach does that is visible outside the adapter. -/
inductive JniEvent where
  | lock
  | unlock
  | attachCurrentThread (result : Int)
  | detachCurrentThread
  | exceptionDescribe
  | deleteGlobalRef (ref : Option Nat)
  | callVoidMethod (target : Nat) (name : String) (descriptor : String) (args : List JValue)
  deriving DecidableEq, Repr

/-- Whether `_listenerMutex` is held after the events `trace`. -/
def lockHeld (trace : List JniEvent) : Bool :=
  trace.foldl
    (fun held ev =>
      match ev with
      | JniEvent.lock => true
      | JniEvent.unlock => false
      | _ => held)
    false

/-- The value `static_cast<jlong>(v)` of an unsigned 64-bit `v`. -/
def toJlong (v : Nat) : Int :=
  if v % 2 ^ 64 < 2 ^ 63 then Int.ofNat (v % 2 ^ 64) else Int.ofNat (v % 2 ^ 64) - 2 ^ 64

/-- What `attachJVM` returns and leaves behind. -/
structure AttachResult where
  envStat : Int
  thread : JvmThread
  events : List JniEvent

/-- The function `attachJVM` (lines 82-92). -/
def attachJVM (t : JvmThread) : AttachResult :=
  let envStat := t.GetEnv
  if envStat = JNI_EDETACHED then
    if t.attachResult ≠ 0 then
      { envStat := JNI_ERR, thread := t.AttachCurrentThread,
        events := [JniEvent.attachCurrentThread t.attachResult] }
    else
      { envStat := envStat, thread := t.AttachCurrentThread,
        events := [JniEvent.attachCurrentThread t.attachResult] }
  else if envStat = JNI_EVERSION then
    { envStat := JNI_ERR, thread := t, events := [] }
  else
    { envStat := envStat, thread := t, events := [] }

/-- The function `detachJVM` (lines 94-101); `ExceptionDescribe` clears the pending exception. -/
def detachJVM (t : JvmThread) (envStat : Int) : JvmThread × List JniEvent :=
  let r : JvmThread × List JniEvent :=
    if t.exceptionPending then ({ t with exceptionPending := false }, [JniEvent.exceptionDescribe])
    else (t, [])
  if envStat = JNI_EDETACHED then (r.1.DetachCurrentThread, r.2 ++ [JniEvent.detachCurrentThread])
  else r

/-- The struct `WalletJniListener` (lines 106-153): `jlistener` is a global reference to
the host callback object, `none` is `nullptr`. -/
structure WalletJniListener where
  jlistener : Option Nat
  deriving DecidableEq, Repr

/-- The constructor `WalletJniListener(env, listener)`: `jlistener = NewGlobalRef(listener)`. -/
def WalletJniListener.create (listener : Nat) : WalletJniListener :=
  { jlistener := some listener }

/-- The method `deleteGlobalJavaRef` (lines 115-119), under the lock guard. -/
def WalletJniListener.deleteGlobalJavaRef (l : WalletJniListener) :
    WalletJniListener × List JniEvent :=
  ({ l with jlistener := none },
   [JniEvent.lock, JniEvent.deleteGlobalRef l.jlistener, JniEvent.unlock])

/-- The method `onNewBlock` (lines 121-132), under the lock guard; `height` is
`*block.height`, `hostThrows` tells whether the host callback raises a Java exception. -/
def WalletJniListener.onNewBlock (l : WalletJniListener) (t : JvmThread) (height : Nat)
    (hostThrows : Bool) : JvmThread × List JniEvent :=
  match l.jlistener with
  | none => (t, [JniEvent.lock, JniEvent.unlock])
  | some jl =>
    let a := attachJVM t
    if a.envStat = JNI_ERR then (a.thread, [JniEvent.lock] ++ a.events ++ [JniEvent.unlock])
    else
      let called : JvmThread :=
        { a.thread with exceptionPending := a.thread.exceptionPending || hostThrows }
      let d := detachJVM called a.envStat
      (d.1,
       [JniEvent.lock] ++ a.events
         ++ [JniEvent.callVoidMethod jl "onNewBlock" "(J)V" [JValue.long (toJlong height)]]
         ++ d.2 ++ [JniEvent.unlock])

/-- The method `onSyncProgress` (lines 134-152), under the lock guard. -/
def WalletJniListener.onSyncProgress (l : WalletJniListener) (t : JvmThread)
    (height startHeight endHeight percentDone : Nat) (message : String)
    (hostThrows : Bool) : JvmThread × List JniEvent :=
  match l.jlistener with
  | none => (t, [JniEvent.lock, JniEvent.unlock])
  | some jl =>
    let a := attachJVM t
    if a.envStat = JNI_ERR then (a.thread, [JniEvent.lock] ++ a.events ++ [JniEvent.unlock])
    else
      let called : JvmThread :=
        { a.thread with exceptionPending := a.thread.exceptionPending || hostThrows }
      let d := detachJVM called a.envStat
      (d.1,
       [JniEvent.lock] ++ a.events
         ++ [JniEvent.callVoidMethod jl "onSyncProgress" "(JJJDLjava/lang/String;)V"
              [JValue.long (toJlong height), JValue.long (toJlong startHeight),
               JValue.long (toJlong endHeight), JValue.double percentDone,
               JValue.string message]]
         ++ d.2 ++ [JniEvent.unlock])

/-- A notification of the engine to its listener. -/
inductive ListenerEvent where
  | newBlock (height : Nat)
  | syncProgress (height startHeight endHeight percentDone : Nat) (message : String)
  deriving DecidableEq, Repr

/-- The engine notifying the adapter of one event. -/
def WalletJniListener.deliver (l : WalletJniListener) (t : JvmThread) (ev : ListenerEvent)
    (hostThrows : Bool) : JvmThread × List JniEvent :=
  match ev with
  | ListenerEvent.newBlock height => l.onNewBlock t height hostThrows
  | ListenerEvent.syncProgress height startHeight endHeight percentDone message =>
    l.onSyncProgress t height startHeight endHeight percentDone message hostThrows

/-- The engine notifying the adapter of a sequence of events, one after the other. -/
def WalletJniListener.deliverAll (l : WalletJniListener) :
    JvmThread → List (ListenerEvent × Bool) → JvmThread × List JniEvent
  | t, [] => (t, [])
  | t, (ev, hostThrows) :: rest =>
    let r := l.deliver t ev hostThrows
    let r2 := WalletJniListener.deliverAll l r.1 rest
    (r2.1, r.2 ++ r2.2)

/-! ## Handles, `setListenerJni` (lines 475-495) and `closeJni` (lines 1491-1496) -/

/-- The operator `new`: the address it returns is not null and not the address of an
object that is live. -/
structure Allocator where
  alloc : List Nat → Nat
  alloc_ne_zero : ∀ live, alloc live ≠ 0
  alloc_fresh : ∀ live, alloc live ∉ live

/-- An allocator that returns an address above the sum of the live ones. -/
def bumpAllocator : Allocator where
  alloc := fun live => live.sum + 1
  alloc_ne_zero := fun live => Nat.succ_ne_zero _
  alloc_fresh := fun live h => by
    have hle : ∀ (l : List Nat) (x : Nat), x ∈ l → x ≤ l.sum := by
      intro l
      induction l with
      | nil => intro x hx; simp at hx
      | cons a l ih =>
        intro x hx
        rcases List.mem_cons.1 hx with h1 | h1
        · rw [h1, List.sum_cons]; exact Nat.le_add_right _ _
        · rw [List.sum_cons]; exact Nat.le_trans (ih x h1) (Nat.le_add_left _ _)
    exact Nat.lt_irrefl _ (Nat.lt_of_lt_of_le (Nat.lt_succ_self _) (hle live _ h))

/-- The name `JNI_WALLET_HANDLE` (line 45). -/
def JNI_WALLET_HANDLE : String := "jniWalletHandle"

/-- The name `JNI_LISTENER_HANDLE` (line 46). -/
def JNI_LISTENER_HANDLE : String := "jniListenerHandle"

/-- The host object `instance` of a JNI call: its two private instance variables, which
hold the memory references to the native wallet and listener (line 44); 0 is no
reference. Only host code writes them. -/
structure HostObject where
  jniWalletHandle : Nat
  jniListenerHandle : Nat
  deriving DecidableEq, Repr

/-- Modelled from the spec: the helper `getHandle<T>(env, instance, fieldName)`, declared in
`MoneroWalletJni.h`, which is not among the sources. By the spec a handle is an integer
of the size of a native pointer whose use outside its validity window is undefined at the
native layer (section 2), and native pointers cross the boundary as integers converted by
ad hoc casts (section 9). The sources agree: they make a handle with
`reinterpret_cast<jlong>(wallet)` (line 276), keep it in a private instance variable of
the host object that holds a memory reference (line 44) and compare the result of
`getHandle` with `nullptr` (line 482). So `getHandle` returns the content of the named
variable as an address, 0 being `nullptr`; it consults nothing else.

Section 4.1 of the spec also has `resolve` fail with InvalidHandle on a destroyed handle.
This definition does not follow that sentence: the helper is given the host object and a
field name, and neither the creating functions (lines 272-276) nor `closeJni` (lines
1493-1495) write the host object or record which handles are live. What is proved about
destroyed handles is therefore proved for every helper (`closeJniWith`), and `getHandle`
is used for them at concrete inputs only. -/
def getHandle (inst : HostObject) (fieldName : String) : Nat :=
  if fieldName = JNI_WALLET_HANDLE then inst.jniWalletHandle
  else if fieldName = JNI_LISTENER_HANDLE then inst.jniListenerHandle
  else 0

/-- The native objects the bridge has created: the live `MoneroWallet` objects (address
and serial number of creation), the listener each wallet was last given with
`setListener`, the live `WalletJniListener` objects by address, the host objects held by
a global reference, and the addresses given to `delete oldListener` while no live adapter
was there. -/
structure NativeState where
  wallets : List (Nat × Nat)
  created : Nat
  walletListener : Nat → Option Nat
  adapters : List (Nat × WalletJniListener)
  globalRefs : List Nat
  invalidDeletes : List Nat

/-- The state in which nothing has been created. -/
def NativeState.empty : NativeState where
  wallets := []
  created := 0
  walletListener := fun _ => none
  adapters := []
  globalRefs := []
  invalidDeletes := []

/-- The addresses of all live objects. -/
def NativeState.liveAddresses (s : NativeState) : List Nat :=
  s.wallets.map Prod.fst ++ s.adapters.map Prod.fst

/-- The live adapter at an address, if there is one. -/
def NativeState.adapterAt (s : NativeState) (addr : Nat) : Option WalletJniListener :=
  (s.adapters.find? (fun p => p.1 = addr)).map Prod.snd

/-- The live wallet at an address, by its serial number, if there is one. -/
def NativeState.walletAt (s : NativeState) (addr : Nat) : Option Nat :=
  (s.wallets.find? (fun p => p.1 = addr)).map Prod.snd

/-- A native operation of `setListenerJni` or `closeJni`, in the words of the source. -/
inductive Action where
  | setListener (wallet : Nat) (listener : Option Nat)
  | deleteGlobalJavaRef (adapter : Nat)
  | deleteListener (adapter : Nat)
  | newListener (adapter : Nat) (jlistener : Nat)
  | deleteWallet (wallet : Nat)
  deriving DecidableEq, Repr

/-- The call `wallet->setListener(..)`. -/
def NativeState.setListener (s : NativeState) (wallet : Nat) (listener : Option Nat) :
    NativeState :=
  { s with walletListener := fun w => if w = wallet then listener else s.walletListener w }

/-- The call `oldListener->deleteGlobalJavaRef(env)`: the adapter's reference is deleted
and its `jlistener` set to `nullptr`. -/
def NativeState.deleteGlobalJavaRef (s : NativeState) (adapter : Nat) : NativeState :=
  match s.adapterAt adapter with
  | none => s
  | some l =>
    { s with
      adapters := s.adapters.map
        (fun p => if p.1 = adapter then (p.1, l.deleteGlobalJavaRef.1) else p)
      globalRefs :=
        match l.jlistener with
        | none => s.globalRefs
        | some ref => s.globalRefs.erase ref }

/-- The statement `delete oldListener`. -/
def NativeState.deleteListener (s : NativeState) (adapter : Nat) : NativeState :=
  match s.adapterAt adapter with
  | none => { s with invalidDeletes := s.invalidDeletes ++ [adapter] }
  | some _ => { s with adapters := s.adapters.filter (fun p => p.1 ≠ adapter) }

/-- What a call of `setListenerJni` returns, leaves behind and does. -/
structure SetListenerResult where
  ret : Nat
  state : NativeState
  trace : List Action

/-- The function `Java_monero_wallet_MoneroWalletJni_setListenerJni` (lines 475-495);
`jlistener` is the host callback object, `none` for `nullptr`. -/
def setListenerJni (alloc : Allocator) (s : NativeState) (inst : HostObject)
    (jlistener : Option Nat) : SetListenerResult :=
  let wallet := getHandle inst "jniWalletHandle"
  let s1 := s.setListener wallet none
  let oldListener := getHandle inst JNI_LISTENER_HANDLE
  let cleared : NativeState × List Action :=
    if oldListener ≠ 0 then
      ((s1.deleteGlobalJavaRef oldListener).deleteListener oldListener,
       [Action.deleteGlobalJavaRef oldListener, Action.deleteListener oldListener])
    else (s1, [])
  match jlistener with
  | none =>
    { ret := 0, state := cleared.1, trace := [Action.setListener wallet none] ++ cleared.2 }
  | some callback =>
    let listener := alloc.alloc cleared.1.liveAddresses
    let s2 : NativeState :=
      { cleared.1 with
        adapters := cleared.1.adapters ++ [(listener, WalletJniListener.create callback)]
        globalRefs := cleared.1.globalRefs ++ [callback] }
    { ret := listener
      state := s2.setListener wallet (some listener)
      trace := [Action.setListener wallet none] ++ cleared.2
        ++ [Action.newListener listener callback, Action.setListener wallet (some listener)] }

/-- One call of `setListenerJni` by the host, which then stores the returned handle in the
listener-handle variable of the host object. -/
def hostSetListener (alloc : Allocator) (p : NativeState × HostObject)
    (jlistener : Option Nat) : NativeState × HostObject :=
  let r := setListenerJni alloc p.1 p.2 jlistener
  (r.state, { p.2 with jniListenerHandle := r.ret })

/-- The statement `delete wallet` (line 1494): nothing for `nullptr`, and the end of the
object when a live wallet is at the address. At any other address no wallet is live (it
was deleted before, or never created): the statement has no defined result (`none`). -/
def NativeState.deleteWallet (s : NativeState) (wallet : Nat) : Option NativeState :=
  if wallet = 0 then some s
  else
    match s.walletAt wallet with
    | none => none
    | some _ => some { s with wallets := s.wallets.filter (fun p => p.1 ≠ wallet) }

/-- A state with the wallet 5 and its installed adapter 6, which holds the host object 9. -/
def installedState : NativeState where
  wallets := [(5, 0)]
  created := 1
  walletListener := fun w => if w = 5 then some 6 else none
  adapters := [(6, { jlistener := some 9 })]
  globalRefs := [9]
  invalidDeletes := []

/-- The host object of `installedState`. -/
def installedHost : HostObject := { jniWalletHandle := 5, jniListenerHandle := 6 }

/-- Whether an event is a call into the host callback object. -/
def JniEvent.isCall : JniEvent → Bool
  | JniEvent.callVoidMethod _ _ _ _ => true
  | _ => false

/-- Whether an event is a call of `AttachCurrentThread`. -/
def JniEvent.isAttach : JniEvent → Bool
  | JniEvent.attachCurrentThread _ => true
  | _ => false

/-- A thread the Java runtime does not know and cannot attach. -/
def unattachableThread : JvmThread :=
  { attached := false, versionSupported := true, attachResult := -1, exceptionPending := false }

/-- A thread the Java runtime does not know and can attach. -/
def nativeThread : JvmThread :=
  { attached := false, versionSupported := true, attachResult := 0, exceptionPending := false }

/-! ## Entry points that take a request payload, and result documents -/

/-- The function `Java_monero_wallet_MoneroWalletJni_getTransfersJni` (lines 815-860): the
whole body stands in `try ... catch (...)`; the decoder gets
`string(_transferRequest ? _transferRequest : "")`. -/
def getTransfersJni {Req : Type} (findClass : String → Bool)
    (deserializeTransferRequest : String → Except NativeFailure Req)
    (getTransfers : Req → Except NativeFailure (EngineHeap × List MoneroTransfer))
    (jtransferRequest : Option String) : Outcome (List (String × List MoneroBlock)) :=
  match deserializeTransferRequest (jtransferRequest.getD "") with
  | Except.error ex => Outcome.translated (rethrow_cpp_exception_as_java_exception findClass ex)
  | Except.ok transferRequest =>
    match getTransfers transferRequest with
    | Except.error ex => Outcome.translated (rethrow_cpp_exception_as_java_exception findClass ex)
    | Except.ok r => Outcome.returned (blocksContainer (getTransfersBuild r.1 r.2).serialized)

/-- The function `Java_monero_wallet_MoneroWalletJni_sendSplitJni` (lines 965-1012): the
decoder gets `string(_sendRequest ? _sendRequest : "")` and runs outside the `try`, the
engine call stands in a `try` whose `catch` translates and returns 0. -/
def sendSplitJni {Req : Type} (findClass : String → Bool)
    (deserializeSendRequest : String → Except NativeFailure Req)
    (sendSplit : Req → Except NativeFailure (EngineHeap × List Nat))
    (jsendRequest : Option String) : Outcome (List (String × List MoneroBlock)) :=
  match deserializeSendRequest (jsendRequest.getD "") with
  | Except.error ex => Outcome.escaped ex
  | Except.ok sendRequest =>
    match sendSplit sendRequest with
    | Except.error ex => Outcome.translated (rethrow_cpp_exception_as_java_exception findClass ex)
    | Except.ok r => Outcome.returned (blocksContainer (sendSplitBuild r.1 r.2).blocks)

/-- The function `Java_monero_wallet_MoneroWalletJni_sweepOutputJni` (lines 1014-1047). The
text for the decoder is `string(_sendRequest)`, and `_sendRequest` is `nullptr` for an
absent payload: a `std::string` cannot be made from a null pointer, the call has no
defined result then (`none`). Otherwise the decoder runs outside the `try`, the engine
call inside one, and the one transaction is wrapped in a new block. -/
def sweepOutputJni {Req : Type} (findClass : String → Bool)
    (deserializeSendRequest : String → Except NativeFailure Req)
    (sweepOutput : Req → Except NativeFailure Nat)
    (jsendRequest : Option String) : Option (Outcome (List (String × List MoneroBlock))) :=
  match jsendRequest with
  | none => none
  | some sendRequestJson =>
    some
      (match deserializeSendRequest sendRequestJson with
      | Except.error ex => Outcome.escaped ex
      | Except.ok sendRequest =>
        match sweepOutput sendRequest with
        | Except.error ex =>
          Outcome.translated (rethrow_cpp_exception_as_java_exception findClass ex)
        | Except.ok tx =>
          Outcome.returned (blocksContainer [{ MoneroBlock.default with txs := [tx] }]))

/-- The function `Java_monero_wallet_MoneroWalletJni_createPaymentUriJni` (lines 1369-1391):
the decoder gets `string(_sendRequest ? _sendRequest : "")` and runs outside the `try`. -/
def createPaymentUriJni {Req : Type} (findClass : String → Bool)
    (deserializeSendRequest : String → Except NativeFailure Req)
    (createPaymentUri : Req → Except NativeFailure String)
    (jsendRequest : Option String) : Outcome String :=
  match deserializeSendRequest (jsendRequest.getD "") with
  | Except.error ex => Outcome.escaped ex
  | Except.ok sendRequest =>
    match createPaymentUri sendRequest with
    | Except.error ex => Outcome.translated (rethrow_cpp_exception_as_java_exception findClass ex)
    | Except.ok paymentUri => Outcome.returned paymentUri

/-- The function `importKeyImagesJni` for a payload that may be absent: the text for the
decoder is `string(_keyImagesJson)` (line 948), made from `nullptr` when the payload is
absent, which has no defined result (`none`). -/
def importKeyImagesJniNullable {Images Result : Type} (findClass : String → Bool)
    (deserializeKeyImages : String → Except NativeFailure Images)
    (importKeyImages : Images → Except NativeFailure Result)
    (jkeyImagesJson : Option String) : Option (List BufferEvent × Outcome Result) :=
  match jkeyImagesJson with
  | none => none
  | some keyImagesJson =>
    some (importKeyImagesJni findClass deserializeKeyImages importKeyImages keyImagesJson)

/-- The requests with which `getTxsJni` invokes `wallet->getTxs` (line 780): the decoded
request, and none when the decoder throws. -/
def getTxsJniQueries {Req : Type} (deserializeTxRequest : String → Except NativeFailure Req)
    (jtxRequest : Option String) : List Req :=
  match deserializeTxRequest (jtxRequest.getD "") with
  | Except.error _ => []
  | Except.ok txRequest => [txRequest]

/-- The requests with which `getTransfersJni` invokes `wallet->getTransfers` (line 827). -/
def getTransfersJniQueries {Req : Type}
    (deserializeTransferRequest : String → Except NativeFailure Req)
    (jtransferRequest : Option String) : List Req :=
  match deserializeTransferRequest (jtransferRequest.getD "") with
  | Except.error _ => []
  | Except.ok transferRequest => [transferRequest]

/-- The requests with which `getOutputsJni` invokes `wallet->getOutputs` (line 873). -/
def getOutputsJniQueries {Req : Type}
    (deserializeOutputRequest : String → Except NativeFailure Req)
    (joutputRequest : Option String) : List Req :=
  match deserializeOutputRequest (joutputRequest.getD "") with
  | Except.error _ => []
  | Except.ok outputRequest => [outputRequest]

/-- The `container` property tree of a collection result: the statement
`if (!items.empty()) container.add_child(key, MoneroUtils::toPropertyTree(items))`. -/
def container {α : Type} (key : String) (items : List α) : List (String × List α) :=
  if items.isEmpty then [] else [(key, items)]

/-- The document of `getAccountsJni` (lines 660-667). -/
def getAccountsJniDocument {Account : Type} (accounts : List Account) :
    List (String × List Account) :=
  container "accounts" accounts

/-- The document of `getSubaddressesJni` (lines 744-750). -/
def getSubaddressesJniDocument {Subaddress : Type} (subaddresses : List Subaddress) :
    List (String × List Subaddress) :=
  container "subaddresses" subaddresses

/-- The document of `getKeyImagesJni` (lines 933-939). -/
def getKeyImagesJniDocument {KeyImage : Type} (keyImages : List KeyImage) :
    List (String × List KeyImage) :=
  container "keyImages" keyImages

/-- The block list of `sweepDustJni` (lines 1062-1067): one new block holding all the
transactions, and no block when there is no transaction. -/
def sweepDustBlocks (txs : List Nat) : List MoneroBlock :=
  if txs.isEmpty then [] else [{ MoneroBlock.default with txs := txs }]

/-- The document of `sweepDustJni` (lines 1068-1073). -/
def sweepDustJniDocument (txs : List Nat) : List (String × List MoneroBlock) :=
  blocksContainer (sweepDustBlocks txs)

/-- The function `Java_monero_wallet_MoneroWalletJni_getAccountsJni` (lines 637-668): no
statement stands in a `try`; the engine gets the flag and `_tag ? string(_tag) : ""`, and
the accounts it returns are wrapped (lines 660-667). The release of the tag buffer (line
666) writes nothing to the document and is left out. -/
def getAccountsJni {Account : Type}
    (getAccounts : Bool → String → Except NativeFailure (List Account))
    (includeSubaddresses : Bool) (jtag : Option String) :
    Outcome (List (String × List Account)) :=
  match getAccounts includeSubaddresses (jtag.getD "") with
  | Except.error ex => Outcome.escaped ex
  | Except.ok accounts => Outcome.returned (getAccountsJniDocument accounts)

/-- The function `Java_monero_wallet_MoneroWalletJni_getSubaddressesJni` (lines 712-751):
no statement stands in a `try`; the indices of the host array, none for `nullptr`, are
pushed onto a `vector<uint32_t>` (lines 717-724), and the subaddresses the engine returns
are wrapped (lines 744-750). -/
def getSubaddressesJni {Subaddress : Type}
    (getSubaddresses : Int → List Nat → Except NativeFailure (List Subaddress))
    (accountIdx : Int) (jsubaddressIndices : Option (List Int)) :
    Outcome (List (String × List Subaddress)) :=
  let subaddressIndices := (jsubaddressIndices.getD []).map (fun i => (i % 4294967296).toNat)
  match getSubaddresses accountIdx subaddressIndices with
  | Except.error ex => Outcome.escaped ex
  | Except.ok subaddresses => Outcome.returned (getSubaddressesJniDocument subaddresses)

/-- The function `Java_monero_wallet_MoneroWalletJni_getKeyImagesJni` (lines 925-940): no
statement stands in a `try`; `getKeyImages` is the result of `wallet->getKeyImages()`, and
the key images are wrapped (lines 933-939). -/
def getKeyImagesJni {KeyImage : Type} (getKeyImages : Except NativeFailure (List KeyImage)) :
    Outcome (List (String × List KeyImage)) :=
  match getKeyImages with
  | Except.error ex => Outcome.escaped ex
  | Except.ok keyImages => Outcome.returned (getKeyImagesJniDocument keyImages)

/-- The function `Java_monero_wallet_MoneroWalletJni_sweepDustJni` (lines 1049-1074): the
engine call stands in a `try` whose `catch` translates and returns 0; the transactions
are put into one new block and the block list is wrapped (lines 1061-1073). -/
def sweepDustJni (findClass : String → Bool)
    (sweepDust : Bool → Except NativeFailure (List Nat)) (doNotRelay : Bool) :
    Outcome (List (String × List MoneroBlock)) :=
  match sweepDust doNotRelay with
  | Except.error ex => Outcome.translated (rethrow_cpp_exception_as_java_exception findClass ex)
  | Except.ok txs => Outcome.returned (sweepDustJniDocument txs)

/-- What is claimed of the result document `doc` of a collection `items` under the key
`key`: the key is a top-level key exactly when the collection is not empty, an empty
collection gives the document without any key, and an entry of the document is the key
with the whole collection, which is then not empty; there is at most one entry. -/
def TopLevelKey {α : Type} (key : String) (items : List α) (doc : List (String × List α)) :
    Prop :=
  (key ∈ doc.map Prod.fst ↔ items ≠ []) ∧
  (items = [] → doc = []) ∧
  (∀ entry ∈ doc, entry = (key, items) ∧ entry.2 ≠ []) ∧
  doc.length ≤ 1

/-! ## `moveToJni` (lines 1474-1489) and `getDaemonConnectionJni` (lines 354-370) -/

/-- The arguments `moveToJni` gives to `wallet->moveTo`. Line 1476 reads `_path` from
`jpath` when `jpath` is not null; line 1477 reads `_password` from `jpassword` when
`jpath` is not null, and `GetStringUTFChars` on a null `jpassword` has no defined result
(`none`). The call is `moveTo(string(_path ? _path : ""), string(_password ? _password : ""))`. -/
def moveToJniArguments (jpath jpassword : Option String) : Option (String × String) :=
  match jpath with
  | none => some ("", "")
  | some path =>
    match jpassword with
    | none => none
    | some password => some (path, password)

/-- The function `Java_monero_wallet_MoneroWalletJni_moveToJni`: the engine call stands in
a `try` whose `catch` translates. -/
def moveToJni (findClass : String → Bool) (moveTo : String → String → Except NativeFailure Unit)
    (jpath jpassword : Option String) : Option (Outcome Unit) :=
  match moveToJniArguments jpath jpassword with
  | none => none
  | some args =>
    some
      (match moveTo args.1 args.2 with
      | Except.ok _ => Outcome.returned ()
      | Except.error ex =>
        Outcome.translated (rethrow_cpp_exception_as_java_exception findClass ex))

/-- The fields of `MoneroRpcConnection` that `getDaemonConnectionJni` reads. -/
structure MoneroRpcConnection where
  uri : String
  username : String
  password : String
  deriving DecidableEq, Repr

/-- The function `Java_monero_wallet_MoneroWalletJni_getDaemonConnectionJni`: 0 for no
connection, else an array of three entries, all null at first, of which an entry is set
when the field is not empty. -/
def getDaemonConnectionJni (daemonConnection : Option MoneroRpcConnection) :
    Option (List (Option String)) :=
  match daemonConnection with
  | none => none
  | some c =>
    let vals0 : List (Option String) := [none, none, none]
    let vals1 := if c.uri ≠ "" then vals0.set 0 (some c.uri) else vals0
    let vals2 := if c.username ≠ "" then vals1.set 1 (some c.username) else vals1
    let vals3 := if c.password ≠ "" then vals2.set 2 (some c.password) else vals2
    some vals3

/-- What every iteration of the loop of `sendSplitJni` keeps: transactions that had a
block point to it, engine blocks are as the engine gave them, and the placeholder, if
there is one, is a block of the call's own. -/
structure SplitKeeps (e : EngineHeap) (s : SplitState) : Prop where
  txBlock_some : ∀ t a, e.txBlock t = some a → s.heap.txBlock t = some (BlockPtr.engine a)
  block_engine : ∀ a, s.heap.block (BlockPtr.engine a) = e.block a
  placeholder_fresh : ∀ b, s.unconfirmedBlock = some b → ∃ k, b = BlockPtr.fresh k

/-! ## Facts about `firstOccurrences` -/

theorem mem_firstOccurrences {α : Type} [DecidableEq α] (l : List α) (x : α) :
    x ∈ firstOccurrences l ↔ x ∈ l := by
  induction l with
  | nil => simp [firstOccurrences]
  | cons a l ih =>
    simp only [firstOccurrences, List.mem_cons, List.mem_filter, ih]
    by_cases hx : x = a <;> simp [hx]

theorem nodup_firstOccurrences {α : Type} [DecidableEq α] (l : List α) :
    (firstOccurrences l).Nodup := by
  induction l with
  | nil => simp [firstOccurrences]
  | cons a l ih =>
    simp only [firstOccurrences, List.nodup_cons, List.mem_filter]
    exact ⟨by simp, ih.filter _⟩

theorem firstOccurrences_append {α : Type} [DecidableEq α] (l₁ l₂ : List α) :
    firstOccurrences (l₁ ++ l₂)
      = firstOccurrences l₁ ++ (firstOccurrences l₂).filter (fun x => x ∉ l₁) := by
  induction l₁ with
  | nil => simp [firstOccurrences]
  | cons a l ih =>
    show firstOccurrences (a :: (l ++ l₂)) = _
    rw [firstOccurrences, ih, firstOccurrences, List.filter_append, List.filter_filter,
      List.cons_append]
    congr 2
    apply List.filter_congr
    intro x _
    by_cases hx : x = a <;> simp [hx]

theorem firstOccurrences_concat {α : Type} [DecidableEq α] (l : List α) (x : α) :
    firstOccurrences (l ++ [x]) = firstOccurrences l ++ (if x ∈ l then [] else [x]) := by
  rw [firstOccurrences_append]
  by_cases hx : x ∈ l <;> simp [firstOccurrences, hx]

/-! ## The loop of `getTxsJni` in closed form -/

theorem tracks_init (e : EngineHeap) : Tracks e [] (GraphState.init e) where
  blocks_eq := rfl
  seen_iff := fun _ => Iff.rfl
  txBlock_mem := fun _ h => absurd h (List.not_mem_nil _)
  txBlock_not_mem := fun _ _ => rfl
  block_engine := fun _ => rfl
  none_case := fun _ => ⟨rfl, rfl⟩
  some_case := fun h => absurd rfl h

theorem fresh_mem_map_blockOf (e : EngineHeap) (l : List Nat) :
    BlockPtr.fresh 0 ∈ l.map (blockOf e) ↔ unconfirmedTxs e l ≠ [] := by
  simp only [List.mem_map, unconfirmedTxs, ne_eq, List.filter_eq_nil_iff, decide_eq_true_eq,
    not_forall, Classical.not_not]
  constructor
  · rintro ⟨t, ht, hb⟩
    refine ⟨t, ht, ?_⟩
    cases h : e.txBlock t with
    | none => rfl
    | some a => simp [blockOf, h] at hb
  · rintro ⟨t, ht, hb⟩
    exact ⟨t, ht, by simp [blockOf, hb]⟩

theorem unconfirmedTxs_concat (e : EngineHeap) (l : List Nat) (t : Nat) :
    unconfirmedTxs e (l ++ [t])
      = unconfirmedTxs e l ++ (if e.txBlock t = none then [t] else []) := by
  by_cases h : e.txBlock t = none <;> simp [unconfirmedTxs, List.filter_append, h]

theorem mem_unconfirmedTxs (e : EngineHeap) (l : List Nat) (t : Nat) :
    t ∈ unconfirmedTxs e l ↔ t ∈ l ∧ e.txBlock t = none := by
  simp [unconfirmedTxs]

/-- Step of the closed form when the transaction already points to a block. -/
theorem Tracks.step_some {e : EngineHeap} {l : List Nat} {s : GraphState} (h : Tracks e l s)
    (t : Nat) (hs : s.heap.txBlock t = some (blockOf e t))
    (hun : unconfirmedTxs e (l ++ [t]) = unconfirmedTxs e l ∨
      (t ∈ l ∧ e.txBlock t = none)) :
    Tracks e (l ++ [t]) (getTxsStep s t) := by
  have hun2 : firstOccurrences (unconfirmedTxs e (l ++ [t])) = firstOccurrences (unconfirmedTxs e l)
      ∧ (unconfirmedTxs e (l ++ [t]) = [] ↔ unconfirmedTxs e l = []) := by
    rcases hun with hun | ⟨htl, hb⟩
    · rw [hun]; exact ⟨rfl, Iff.rfl⟩
    · have hm : t ∈ unconfirmedTxs e l := (mem_unconfirmedTxs e l t).2 ⟨htl, hb⟩
      rw [unconfirmedTxs_concat, if_pos hb, firstOccurrences_concat, if_pos hm]
      refine ⟨by simp, ?_⟩
      constructor
      · intro h0; simp at h0
      · intro h0; rw [h0] at hm; simp at hm
  have hatt : attachUnconfirmed s t = s := by simp [attachUnconfirmed, hs]
  have htx : ∀ u, u ∈ l ++ [t] → s.heap.txBlock u = some (blockOf e u) := by
    intro u hu
    rcases List.mem_append.1 hu with hu | hu
    · exact h.txBlock_mem u hu
    · rw [List.mem_singleton.1 hu]; exact hs
  have htn : ∀ u, u ∉ l ++ [t] → s.heap.txBlock u = (e.txBlock u).map BlockPtr.engine := by
    intro u hu
    exact h.txBlock_not_mem u (fun hul => hu (List.mem_append_left _ hul))
  by_cases hseen : blockOf e t ∈ s.seenBlockPtrs
  · have hst : getTxsStep s t = s := by simp [getTxsStep, hatt, visitBlock, hs, hseen]
    have hml : blockOf e t ∈ l.map (blockOf e) := by
      have := (h.seen_iff _).1 hseen
      rw [h.blocks_eq, mem_firstOccurrences] at this
      exact this
    rw [hst]
    refine ⟨?_, h.seen_iff, htx, htn, h.block_engine, ?_, ?_⟩
    · rw [List.map_append, List.map_singleton, firstOccurrences_concat, if_pos hml,
        List.append_nil, h.blocks_eq]
    · intro h0; exact h.none_case (hun2.2.1 h0)
    · intro h0
      rw [hun2.1]
      exact h.some_case (fun h1 => h0 (hun2.2.2 h1))
  · have hst : getTxsStep s t
        = GraphState.mk s.heap s.unconfirmedBlock (s.blocks ++ [blockOf e t])
            (blockOf e t :: s.seenBlockPtrs) := by
      simp [getTxsStep, hatt, visitBlock, hs, hseen]
    have hml : blockOf e t ∉ l.map (blockOf e) := by
      intro hm
      apply hseen
      rw [h.seen_iff, h.blocks_eq, mem_firstOccurrences]
      exact hm
    rw [hst]
    refine ⟨?_, ?_, htx, htn, h.block_engine, ?_, ?_⟩
    · show s.blocks ++ [blockOf e t] = _
      rw [List.map_append, List.map_singleton, firstOccurrences_concat, if_neg hml, h.blocks_eq]
    · intro b
      show b ∈ blockOf e t :: s.seenBlockPtrs ↔ b ∈ s.blocks ++ [blockOf e t]
      simp only [List.mem_cons, List.mem_append, List.mem_singleton, h.seen_iff]
      tauto
    · intro h0; exact h.none_case (hun2.2.1 h0)
    · intro h0
      rw [hun2.1]
      exact h.some_case (fun h1 => h0 (hun2.2.2 h1))

/-- Step of the closed form when the transaction has no block yet. -/
theorem Tracks.step_none {e : EngineHeap} {l : List Nat} {s : GraphState} (h : Tracks e l s)
    (t : Nat) (hs : s.heap.txBlock t = none) :
    Tracks e (l ++ [t]) (getTxsStep s t) := by
  have htl : t ∉ l := by
    intro ht
    have := h.txBlock_mem t ht
    rw [hs] at this
    exact Option.noConfusion this
  have hb : e.txBlock t = none := by
    have := h.txBlock_not_mem t htl
    rw [hs] at this
    cases h2 : e.txBlock t with
    | none => rfl
    | some a => rw [h2] at this; exact Option.noConfusion this
  have hbo : blockOf e t = BlockPtr.fresh 0 := by simp [blockOf, hb]
  have hun : unconfirmedTxs e (l ++ [t]) = unconfirmedTxs e l ++ [t] := by
    rw [unconfirmedTxs_concat, if_pos hb]
  have hnm : t ∉ unconfirmedTxs e l := fun hm => htl ((mem_unconfirmedTxs e l t).1 hm).1
  have hne : unconfirmedTxs e (l ++ [t]) ≠ [] := by rw [hun]; simp
  by_cases h0 : unconfirmedTxs e l = []
  · obtain ⟨hu, ha⟩ := h.none_case h0
    have hns : BlockPtr.fresh 0 ∉ s.seenBlockPtrs := by
      rw [h.seen_iff, h.blocks_eq, mem_firstOccurrences, fresh_mem_map_blockOf]
      exact fun hc => hc h0
    have hst : getTxsStep s t
        = GraphState.mk ((s.heap.newBlock.2.setTxBlock t (BlockPtr.fresh 0)).pushTx (BlockPtr.fresh 0) t)
            (some (BlockPtr.fresh 0)) (s.blocks ++ [BlockPtr.fresh 0])
            (BlockPtr.fresh 0 :: s.seenBlockPtrs) := by
      simp [getTxsStep, attachUnconfirmed, visitBlock, hs, hu, Heap.newBlock, ha, Heap.setTxBlock,
        Heap.pushTx, hns]
    rw [hst]
    refine ⟨?_, ?_, ?_, ?_, ?_, ?_, ?_⟩
    · show s.blocks ++ [BlockPtr.fresh 0] = _
      have hml : BlockPtr.fresh 0 ∉ l.map (blockOf e) := by
        rw [fresh_mem_map_blockOf]; exact fun hc => hc h0
      rw [List.map_append, List.map_singleton, firstOccurrences_concat, hbo, if_neg hml,
        h.blocks_eq]
    · intro b
      show b ∈ BlockPtr.fresh 0 :: s.seenBlockPtrs ↔ b ∈ s.blocks ++ [BlockPtr.fresh 0]
      simp only [List.mem_cons, List.mem_append, List.mem_singleton, h.seen_iff]
      tauto
    · intro u hu
      by_cases hut : u = t
      · simp [Heap.pushTx, Heap.setTxBlock, hut, hbo]
      · have hul : u ∈ l := by
          rcases List.mem_append.1 hu with hu | hu
          · exact hu
          · exact absurd (List.mem_singleton.1 hu) hut
        simp [Heap.pushTx, Heap.setTxBlock, Heap.newBlock, hut, h.txBlock_mem u hul]
    · intro u hu
      have hut : u ≠ t := fun hc => hu (by simp [hc])
      have hul : u ∉ l := fun hc => hu (List.mem_append_left _ hc)
      simp [Heap.pushTx, Heap.setTxBlock, Heap.newBlock, hut, h.txBlock_not_mem u hul]
    · intro a
      simp [Heap.pushTx, Heap.setTxBlock, Heap.newBlock, h.block_engine a]
    · intro hc; exact absurd hc hne
    · intro _
      refine ⟨rfl, ?_, ?_⟩
      · simp [Heap.pushTx, Heap.setTxBlock, Heap.newBlock, ha]
      · rw [hun, h0]
        simp [Heap.pushTx, Heap.setTxBlock, Heap.newBlock, ha, MoneroBlock.default,
          firstOccurrences]
  · obtain ⟨hu, ha, hblk⟩ := h.some_case h0
    have hsn : BlockPtr.fresh 0 ∈ s.seenBlockPtrs := by
      rw [h.seen_iff, h.blocks_eq, mem_firstOccurrences, fresh_mem_map_blockOf]
      exact h0
    have hst : getTxsStep s t
        = GraphState.mk ((s.heap.setTxBlock t (BlockPtr.fresh 0)).pushTx (BlockPtr.fresh 0) t)
            (some (BlockPtr.fresh 0)) s.blocks s.seenBlockPtrs := by
      simp [getTxsStep, attachUnconfirmed, visitBlock, hs, hu, Heap.setTxBlock,
        Heap.pushTx, hsn]
    rw [hst]
    refine ⟨?_, h.seen_iff, ?_, ?_, ?_, ?_, ?_⟩
    · show s.blocks = _
      have hml : BlockPtr.fresh 0 ∈ l.map (blockOf e) := by
        rw [fresh_mem_map_blockOf]; exact h0
      rw [List.map_append, List.map_singleton, firstOccurrences_concat, hbo, if_pos hml,
        List.append_nil, h.blocks_eq]
    · intro u hu
      by_cases hut : u = t
      · simp [Heap.pushTx, Heap.setTxBlock, hut, hbo]
      · have hul : u ∈ l := by
          rcases List.mem_append.1 hu with hu | hu
          · exact hu
          · exact absurd (List.mem_singleton.1 hu) hut
        simp [Heap.pushTx, Heap.setTxBlock, hut, h.txBlock_mem u hul]
    · intro u hu
      have hut : u ≠ t := fun hc => hu (by simp [hc])
      have hul : u ∉ l := fun hc => hu (List.mem_append_left _ hc)
      simp [Heap.pushTx, Heap.setTxBlock, hut, h.txBlock_not_mem u hul]
    · intro a
      simp [Heap.pushTx, Heap.setTxBlock, h.block_engine a]
    · intro hc; exact absurd hc hne
    · intro _
      refine ⟨rfl, ?_, ?_⟩
      · simp [Heap.pushTx, Heap.setTxBlock, ha]
      · rw [hun, firstOccurrences_concat, if_neg hnm]
        simp [Heap.pushTx, Heap.setTxBlock, hblk]

/-- One loop iteration keeps the closed form. -/
theorem Tracks.step {e : EngineHeap} {l : List Nat} {s : GraphState} (h : Tracks e l s)
    (t : Nat) : Tracks e (l ++ [t]) (getTxsStep s t) := by
  cases hs : s.heap.txBlock t with
  | none => exact h.step_none t hs
  | some b =>
    by_cases htl : t ∈ l
    · have hbt := h.txBlock_mem t htl
      refine h.step_some t hbt ?_
      cases hb : e.txBlock t with
      | none => exact Or.inr ⟨htl, rfl⟩
      | some a => left; rw [unconfirmedTxs_concat, if_neg (by simp [hb])]; simp
    · have hbt := h.txBlock_not_mem t htl
      cases hb : e.txBlock t with
      | none => rw [hb, hs] at hbt; exact Option.noConfusion hbt
      | some a =>
        refine h.step_some t ?_ ?_
        · rw [hbt, hb]; simp [blockOf, hb]
        · left; rw [unconfirmedTxs_concat, if_neg (by simp [hb])]; simp

theorem tracks_foldl (e : EngineHeap) (l₂ : List Nat) :
    ∀ (l₁ : List Nat) (s : GraphState), Tracks e l₁ s →
      Tracks e (l₁ ++ l₂) (l₂.foldl getTxsStep s) := by
  induction l₂ with
  | nil => intro l₁ s h; simpa using h
  | cons t l₂ ih =>
    intro l₁ s h
    have := ih (l₁ ++ [t]) (getTxsStep s t) (h.step t)
    simpa using this

/-- The state after the loop of `getTxsJni`, in closed form. -/
theorem tracks_getTxsBuild (e : EngineHeap) (txs : List Nat) :
    Tracks e txs (getTxsBuild e txs) := by
  have := tracks_foldl e txs [] (GraphState.init e) (tracks_init e)
  simpa [getTxsBuild] using this

/-- The loop of `getTransfersJni` is the loop of `getTxsJni` run on the transfers' transactions. -/
theorem getTransfersBuild_eq (e : EngineHeap) (transfers : List MoneroTransfer) :
    getTransfersBuild e transfers = getTxsBuild e (transfers.map MoneroTransfer.tx) := by
  unfold getTransfersBuild getTxsBuild
  rw [List.foldl_map]
  rfl

/-! ## Counting and ordering lemmas -/

theorem toFinset_map_blockOf (e : EngineHeap) (l : List Nat) :
    (l.map (blockOf e)).toFinset
      = ((l.filterMap e.txBlock).toFinset.image BlockPtr.engine)
          ∪ (if unconfirmedTxs e l = [] then ∅ else {BlockPtr.fresh 0}) := by
  ext b
  have hf := fresh_mem_map_blockOf e l
  cases b with
  | engine a =>
    have hr : BlockPtr.engine a ∉ (if unconfirmedTxs e l = [] then (∅ : Finset BlockPtr)
        else {BlockPtr.fresh 0}) := by
      by_cases h0 : unconfirmedTxs e l = [] <;> simp [h0]
    simp only [List.mem_toFinset, List.mem_map, Finset.mem_union, Finset.mem_image,
      List.mem_filterMap, hr, or_false]
    constructor
    · rintro ⟨t, ht, hb⟩
      refine ⟨a, ⟨t, ht, ?_⟩, rfl⟩
      cases h : e.txBlock t with
      | none => simp [blockOf, h] at hb
      | some c => simp [blockOf, h] at hb; rw [hb]
    · rintro ⟨c, ⟨t, ht, hb⟩, hc⟩
      refine ⟨t, ht, ?_⟩
      simp only [BlockPtr.engine.injEq] at hc
      simp [blockOf, hb, hc]
  | fresh k =>
    have hl : BlockPtr.fresh k ∉ (l.filterMap e.txBlock).toFinset.image BlockPtr.engine := by
      simp
    simp only [List.mem_toFinset, Finset.mem_union, hl, false_or]
    by_cases hk : k = 0
    · subst hk
      rw [hf]
      by_cases h0 : unconfirmedTxs e l = [] <;> simp [h0]
    · have h1 : BlockPtr.fresh k ∉ l.map (blockOf e) := by
        simp only [List.mem_map, not_exists, not_and]
        intro t _ hb
        cases h : e.txBlock t with
        | none => simp [blockOf, h] at hb; exact hk hb.symm
        | some c => simp [blockOf, h] at hb
      by_cases h0 : unconfirmedTxs e l = [] <;> simp [h0, h1, hk]

/-- The number of first occurrences among the blocks of `l`: the distinct engine blocks,
plus one when some transaction of `l` has no block. -/
theorem length_firstOccurrences_map_blockOf (e : EngineHeap) (l : List Nat) :
    (firstOccurrences (l.map (blockOf e))).length
      = (l.filterMap e.txBlock).toFinset.card + (if unconfirmedTxs e l = [] then 0 else 1) := by
  have h1 : (firstOccurrences (l.map (blockOf e))).length
      = (firstOccurrences (l.map (blockOf e))).toFinset.card :=
    (List.toFinset_card_of_nodup (nodup_firstOccurrences _)).symm
  have h2 : (firstOccurrences (l.map (blockOf e))).toFinset = (l.map (blockOf e)).toFinset := by
    ext b; simp [mem_firstOccurrences]
  have hinj : Function.Injective BlockPtr.engine := fun a b h => by cases h; rfl
  rw [h1, h2, toFinset_map_blockOf, Finset.card_union_of_disjoint, Finset.card_image_of_injective _ hinj]
  · by_cases h0 : unconfirmedTxs e l = [] <;> simp [h0]
  · by_cases h0 : unconfirmedTxs e l = [] <;> simp [h0]

theorem indexOf_filter_lt {α : Type} [DecidableEq α] (p : α → Bool) (a b : α)
    (ha : p a = true) (hb : p b = true) (l : List α) :
    (List.indexOf a (l.filter p) < List.indexOf b (l.filter p))
      ↔ (List.indexOf a l < List.indexOf b l) := by
  induction l with
  | nil => simp
  | cons c l ih =>
    by_cases hca : c = a
    · subst hca
      by_cases hcb : c = b
      · subst hcb; simp [List.filter_cons, ha]
      · simp [List.filter_cons, ha, List.indexOf_cons_ne _ hcb]
    · by_cases hcb : c = b
      · subst hcb
        simp [List.filter_cons, hb]
      · by_cases hc : p c = true
        · simp [List.filter_cons, hc, List.indexOf_cons_ne _ hca, List.indexOf_cons_ne _ hcb, ih]
        · simp [List.filter_cons, hc, List.indexOf_cons_ne _ hca, List.indexOf_cons_ne _ hcb, ih]

/-- The order of `firstOccurrences l` is the order of first occurrence in `l`. -/
theorem indexOf_firstOccurrences_lt {α : Type} [DecidableEq α] (a b : α) (l : List α) :
    (List.indexOf a (firstOccurrences l) < List.indexOf b (firstOccurrences l))
      ↔ (List.indexOf a l < List.indexOf b l) := by
  induction l with
  | nil => simp [firstOccurrences]
  | cons c l ih =>
    by_cases hca : c = a
    · subst hca
      by_cases hcb : c = b
      · subst hcb; simp [firstOccurrences]
      · simp [firstOccurrences, List.indexOf_cons_ne _ hcb]
    · by_cases hcb : c = b
      · subst hcb
        simp [firstOccurrences]
      · have hpa : (fun x => decide (x ≠ c)) a = true := by simpa using fun h => hca h.symm
        have hpb : (fun x => decide (x ≠ c)) b = true := by simpa using fun h => hcb h.symm
        simp only [firstOccurrences, List.indexOf_cons_ne _ hca, List.indexOf_cons_ne _ hcb,
          Nat.succ_lt_succ_iff]
        rw [indexOf_filter_lt _ a b hpa hpb, ih]

/-! ## Claims about the graph build of `getTxsJni` and `getTransfersJni` -/

theorem unconfirmedTxs_eq_nil_iff (e : EngineHeap) (l : List Nat) :
    unconfirmedTxs e l = [] ↔ ¬ ∃ t ∈ l, e.txBlock t = none := by
  simp [unconfirmedTxs, List.filter_eq_nil_iff]

/-- C1: the block list built by `getTxsJni` has as many entries as there are distinct blocks
among the transactions that have a block, plus one if some transaction has no block; and
for transactions A, B in block X (which lists A, B) followed by a block-less C the list is
X, holding A and B in that order, then one new block holding C. -/
theorem C1_getTxs_block_count :
    (∀ (e : EngineHeap) (txs : List Nat),
      (getTxsBuild e txs).blocks.length
        = (txs.filterMap e.txBlock).toFinset.card
          + (if ∃ t ∈ txs, e.txBlock t = none then 1 else 0)) ∧
    (∀ (e : EngineHeap) (A B C X : Nat),
      e.txBlock A = some X → e.txBlock B = some X → e.txBlock C = none →
      (e.block X).txs = [A, B] →
      (getTxsBuild e [A, B, C]).blocks = [BlockPtr.engine X, BlockPtr.fresh 0] ∧
      (getTxsBuild e [A, B, C]).unconfirmedBlock = some (BlockPtr.fresh 0) ∧
      (getTxsBuild e [A, B, C]).serialized.length = 2 ∧
      (getTxsBuild e [A, B, C]).serialized.map MoneroBlock.txs = [[A, B], [C]]) := by
  constructor
  · intro e txs
    have h := tracks_getTxsBuild e txs
    rw [h.blocks_eq, length_firstOccurrences_map_blockOf]
    congr 1
    by_cases h0 : unconfirmedTxs e txs = []
    · rw [if_pos h0, if_neg ((unconfirmedTxs_eq_nil_iff e txs).1 h0)]
    · rw [if_neg h0, if_pos (not_not.1 (fun hc => h0 ((unconfirmedTxs_eq_nil_iff e txs).2 hc)))]
  · intro e A B C X hA hB hC hX
    have h := tracks_getTxsBuild e [A, B, C]
    have hun : unconfirmedTxs e [A, B, C] = [C] := by simp [unconfirmedTxs, hA, hB, hC]
    have hbl : (getTxsBuild e [A, B, C]).blocks = [BlockPtr.engine X, BlockPtr.fresh 0] := by
      rw [h.blocks_eq]
      simp [firstOccurrences, blockOf, hA, hB, hC]
    obtain ⟨hu, _, hp⟩ := h.some_case (by rw [hun]; simp)
    refine ⟨hbl, hu, ?_, ?_⟩
    · simp [GraphState.serialized, hbl]
    · simp [GraphState.serialized, hbl, h.block_engine, hp, hun, hX, firstOccurrences]

/-- Witness of C1 on the scenario of the spec. -/
theorem C1_getTxs_block_count_witness :
    (getTxsBuild scenarioHeap [1, 2, 3]).blocks = [BlockPtr.engine 7, BlockPtr.fresh 0] ∧
    (getTxsBuild scenarioHeap [1, 2, 3]).unconfirmedBlock = some (BlockPtr.fresh 0) ∧
    (getTxsBuild scenarioHeap [1, 2, 3]).serialized.length = 2 ∧
    (getTxsBuild scenarioHeap [1, 2, 3]).serialized.map MoneroBlock.txs = [[1, 2], [3]] :=
  C1_getTxs_block_count.2 scenarioHeap 1 2 3 7 (by decide) (by decide) (by decide) (by decide)

/-- C2: no block identity occurs twice in the block list built by `getTxsJni` or by
`getTransfersJni`. -/
theorem C2_blocks_nodup :
    (∀ (e : EngineHeap) (txs : List Nat), (getTxsBuild e txs).blocks.Nodup) ∧
    (∀ (e : EngineHeap) (transfers : List MoneroTransfer),
      (getTransfersBuild e transfers).blocks.Nodup) := by
  constructor
  · intro e txs
    rw [(tracks_getTxsBuild e txs).blocks_eq]
    exact nodup_firstOccurrences _
  · intro e transfers
    rw [getTransfersBuild_eq, (tracks_getTxsBuild e _).blocks_eq]
    exact nodup_firstOccurrences _

theorem tracks_every_tx_listed {e : EngineHeap} {l : List Nat} {s : GraphState}
    (h : Tracks e l s) :
    s.heap.allocated ≤ 1 ∧
    ∀ t ∈ l, ∃ b, s.heap.txBlock t = some b ∧ b ∈ s.blocks ∧
      ∀ c ∈ s.blocks, s.heap.txBlock t = some c → c = b := by
  constructor
  · by_cases h0 : unconfirmedTxs e l = []
    · rw [(h.none_case h0).2]; exact Nat.zero_le 1
    · rw [(h.some_case h0).2.1]
  · intro t ht
    refine ⟨blockOf e t, h.txBlock_mem t ht, ?_, ?_⟩
    · rw [h.blocks_eq, mem_firstOccurrences]
      exact List.mem_map_of_mem _ ht
    · intro c _ hc
      rw [h.txBlock_mem t ht] at hc
      exact (Option.some.inj hc).symm

/-- C3: after the graph build of `getTxsJni` or `getTransfersJni` at most one block has been
allocated, and every transaction of the input points to a block that is in the block
list, and to no other block of the list. -/
theorem C3_every_tx_in_one_listed_block :
    (∀ (e : EngineHeap) (txs : List Nat),
      (getTxsBuild e txs).heap.allocated ≤ 1 ∧
      ∀ t ∈ txs, ∃ b, (getTxsBuild e txs).heap.txBlock t = some b ∧
        b ∈ (getTxsBuild e txs).blocks ∧
        ∀ c ∈ (getTxsBuild e txs).blocks, (getTxsBuild e txs).heap.txBlock t = some c → c = b) ∧
    (∀ (e : EngineHeap) (transfers : List MoneroTransfer),
      (getTransfersBuild e transfers).heap.allocated ≤ 1 ∧
      ∀ tr ∈ transfers, ∃ b, (getTransfersBuild e transfers).heap.txBlock tr.tx = some b ∧
        b ∈ (getTransfersBuild e transfers).blocks ∧
        ∀ c ∈ (getTransfersBuild e transfers).blocks,
          (getTransfersBuild e transfers).heap.txBlock tr.tx = some c → c = b) := by
  constructor
  · intro e txs
    exact tracks_every_tx_listed (tracks_getTxsBuild e txs)
  · intro e transfers
    rw [getTransfersBuild_eq]
    have h := tracks_every_tx_listed (tracks_getTxsBuild e (transfers.map MoneroTransfer.tx))
    refine ⟨h.1, ?_⟩
    intro tr htr
    exact h.2 tr.tx (List.mem_map_of_mem _ htr)

/-- Witness of C3: in the scenario of the spec the block-less transaction 3 ends in a listed block. -/
theorem C3_every_tx_in_one_listed_block_witness :
    ∃ b, (getTxsBuild scenarioHeap [1, 2, 3]).heap.txBlock 3 = some b ∧
      b ∈ (getTxsBuild scenarioHeap [1, 2, 3]).blocks ∧
      ∀ c ∈ (getTxsBuild scenarioHeap [1, 2, 3]).blocks,
        (getTxsBuild scenarioHeap [1, 2, 3]).heap.txBlock 3 = some c → c = b :=
  (C3_every_tx_in_one_listed_block.1 scenarioHeap [1, 2, 3]).2 3 (by decide)

theorem tracks_pending_txs {e : EngineHeap} {l : List Nat} {s : GraphState}
    (h : Tracks e l s) :
    (s.unconfirmedBlock = none ↔ ¬ ∃ t ∈ l, e.txBlock t = none) ∧
    ∀ p, s.unconfirmedBlock = some p →
      (s.heap.block p).txs = firstOccurrences (l.filter (fun t => e.txBlock t = none)) := by
  by_cases h0 : unconfirmedTxs e l = []
  · have hn := (h.none_case h0).1
    refine ⟨⟨fun _ => (unconfirmedTxs_eq_nil_iff e l).1 h0, fun _ => hn⟩, ?_⟩
    intro p hp
    rw [hn] at hp
    exact Option.noConfusion hp
  · obtain ⟨hu, _, hb⟩ := h.some_case h0
    refine ⟨⟨fun hc => ?_, fun hc => absurd ((unconfirmedTxs_eq_nil_iff e l).2 hc) h0⟩, ?_⟩
    · rw [hu] at hc; exact Option.noConfusion hc
    · intro p hp
      rw [hu] at hp
      rw [← Option.some.inj hp, hb]
      rfl

/-- C4: in `getTxsJni` and `getTransfersJni` a placeholder block exists exactly when some
input transaction has no block, and its `txs` are the block-less transactions of the
input, each once, in the order of their first appearance. -/
theorem C4_pending_block_txs :
    (∀ (e : EngineHeap) (txs : List Nat),
      ((getTxsBuild e txs).unconfirmedBlock = none ↔ ¬ ∃ t ∈ txs, e.txBlock t = none) ∧
      ∀ p, (getTxsBuild e txs).unconfirmedBlock = some p →
        ((getTxsBuild e txs).heap.block p).txs
          = firstOccurrences (txs.filter (fun t => e.txBlock t = none))) ∧
    (∀ (e : EngineHeap) (transfers : List MoneroTransfer),
      ((getTransfersBuild e transfers).unconfirmedBlock = none
        ↔ ¬ ∃ tr ∈ transfers, e.txBlock tr.tx = none) ∧
      ∀ p, (getTransfersBuild e transfers).unconfirmedBlock = some p →
        ((getTransfersBuild e transfers).heap.block p).txs
          = firstOccurrences
              ((transfers.map MoneroTransfer.tx).filter (fun t => e.txBlock t = none))) := by
  constructor
  · intro e txs
    exact tracks_pending_txs (tracks_getTxsBuild e txs)
  · intro e transfers
    rw [getTransfersBuild_eq]
    have h := tracks_pending_txs (tracks_getTxsBuild e (transfers.map MoneroTransfer.tx))
    refine ⟨?_, h.2⟩
    rw [h.1]
    simp

/-- Witness of C4: two transfers of the block-less transaction 3 and one of the block-less
transaction 4 put 3 and 4 into the placeholder block, once each. -/
theorem C4_pending_block_txs_witness :
    ((getTransfersBuild scenarioHeap [⟨3⟩, ⟨4⟩, ⟨3⟩]).heap.block (BlockPtr.fresh 0)).txs
      = firstOccurrences
          (([⟨3⟩, ⟨4⟩, ⟨3⟩] : List MoneroTransfer).map MoneroTransfer.tx |>.filter
            (fun t => scenarioHeap.txBlock t = none)) ∧
    firstOccurrences
        (([⟨3⟩, ⟨4⟩, ⟨3⟩] : List MoneroTransfer).map MoneroTransfer.tx |>.filter
          (fun t => scenarioHeap.txBlock t = none)) = [3, 4] :=
  ⟨(C4_pending_block_txs.2 scenarioHeap [⟨3⟩, ⟨4⟩, ⟨3⟩]).2 (BlockPtr.fresh 0) (by decide),
    by decide⟩

theorem tracks_order {e : EngineHeap} {l : List Nat} {s : GraphState} (h : Tracks e l s) :
    (∀ t ∈ l, s.heap.txBlock t = some (blockOf e t)) ∧
    s.blocks = firstOccurrences (l.map (blockOf e)) ∧
    (∀ b₁ b₂ : BlockPtr,
      List.indexOf b₁ s.blocks < List.indexOf b₂ s.blocks
        ↔ List.indexOf b₁ (l.map (blockOf e)) < List.indexOf b₂ (l.map (blockOf e))) ∧
    (∀ (pre : List Nat) (x : Nat) (post : List Nat), l = pre ++ x :: post →
      (∀ t ∈ pre, e.txBlock t ≠ none) → e.txBlock x = none →
      s.unconfirmedBlock = some (BlockPtr.fresh 0) ∧
      List.indexOf (BlockPtr.fresh 0) s.blocks = (pre.filterMap e.txBlock).toFinset.card) := by
  refine ⟨h.txBlock_mem, h.blocks_eq, ?_, ?_⟩
  · intro b₁ b₂
    rw [h.blocks_eq]
    exact indexOf_firstOccurrences_lt b₁ b₂ _
  · intro pre x post hl hpre hx
    have hne : unconfirmedTxs e l ≠ [] := by
      intro hc
      exact (unconfirmedTxs_eq_nil_iff e l).1 hc ⟨x, by rw [hl]; simp, hx⟩
    have hpre0 : unconfirmedTxs e pre = [] := by
      rw [unconfirmedTxs_eq_nil_iff]
      rintro ⟨t, ht, hb⟩
      exact hpre t ht hb
    have hnm : BlockPtr.fresh 0 ∉ firstOccurrences (pre.map (blockOf e)) := by
      rw [mem_firstOccurrences, fresh_mem_map_blockOf]
      exact fun hc => hc hpre0
    have hbx : blockOf e x = BlockPtr.fresh 0 := by simp [blockOf, hx]
    have hnm2 : BlockPtr.fresh 0 ∉ pre.map (blockOf e) := by
      rw [fresh_mem_map_blockOf]; exact fun hc => hc hpre0
    refine ⟨(h.some_case hne).1, ?_⟩
    rw [h.blocks_eq, hl, List.map_append, firstOccurrences_append,
      List.indexOf_append_of_not_mem hnm, length_firstOccurrences_map_blockOf, if_pos hpre0,
      List.map_cons, hbx, firstOccurrences, List.filter_cons_of_pos (by simpa using hnm2),
      List.indexOf_cons_self]
    rfl

/-- C5: the block list built by `getTxsJni` and `getTransfersJni` lists the blocks of the
input items in the order of their first occurrence, where a block-less item counts for the
block the call allocates; that block stands at the index given by the number of distinct
blocks among the items before the first block-less item. -/
theorem C5_blocks_in_first_occurrence_order :
    (∀ (e : EngineHeap) (txs : List Nat),
      (∀ t ∈ txs, (getTxsBuild e txs).heap.txBlock t = some (blockOf e t)) ∧
      (getTxsBuild e txs).blocks = firstOccurrences (txs.map (blockOf e)) ∧
      (∀ b₁ b₂ : BlockPtr,
        List.indexOf b₁ (getTxsBuild e txs).blocks < List.indexOf b₂ (getTxsBuild e txs).blocks
          ↔ List.indexOf b₁ (txs.map (blockOf e)) < List.indexOf b₂ (txs.map (blockOf e))) ∧
      (∀ (pre : List Nat) (x : Nat) (post : List Nat), txs = pre ++ x :: post →
        (∀ t ∈ pre, e.txBlock t ≠ none) → e.txBlock x = none →
        (getTxsBuild e txs).unconfirmedBlock = some (BlockPtr.fresh 0) ∧
        List.indexOf (BlockPtr.fresh 0) (getTxsBuild e txs).blocks
          = (pre.filterMap e.txBlock).toFinset.card)) ∧
    (∀ (e : EngineHeap) (transfers : List MoneroTransfer),
      (∀ tr ∈ transfers,
        (getTransfersBuild e transfers).heap.txBlock tr.tx = some (blockOf e tr.tx)) ∧
      (getTransfersBuild e transfers).blocks
        = firstOccurrences (transfers.map (fun tr => blockOf e tr.tx)) ∧
      (∀ b₁ b₂ : BlockPtr,
        List.indexOf b₁ (getTransfersBuild e transfers).blocks
            < List.indexOf b₂ (getTransfersBuild e transfers).blocks
          ↔ List.indexOf b₁ (transfers.map (fun tr => blockOf e tr.tx))
            < List.indexOf b₂ (transfers.map (fun tr => blockOf e tr.tx))) ∧
      (∀ (pre : List MoneroTransfer) (x : MoneroTransfer) (post : List MoneroTransfer),
        transfers = pre ++ x :: post →
        (∀ tr ∈ pre, e.txBlock tr.tx ≠ none) → e.txBlock x.tx = none →
        (getTransfersBuild e transfers).unconfirmedBlock = some (BlockPtr.fresh 0) ∧
        List.indexOf (BlockPtr.fresh 0) (getTransfersBuild e transfers).blocks
          = ((pre.map MoneroTransfer.tx).filterMap e.txBlock).toFinset.card)) := by
  constructor
  · intro e txs
    exact tracks_order (tracks_getTxsBuild e txs)
  · intro e transfers
    rw [getTransfersBuild_eq]
    have h := tracks_order (tracks_getTxsBuild e (transfers.map MoneroTransfer.tx))
    have hmap : (transfers.map MoneroTransfer.tx).map (blockOf e)
        = transfers.map (fun tr => blockOf e tr.tx) := by
      rw [List.map_map]; rfl
    rw [hmap] at h
    refine ⟨fun tr htr => h.1 tr.tx (List.mem_map_of_mem _ htr), h.2.1, h.2.2.1, ?_⟩
    intro pre x post hl hpre hx
    refine h.2.2.2 (pre.map MoneroTransfer.tx) x.tx (post.map MoneroTransfer.tx) ?_ ?_ hx
    · rw [hl]; simp
    · intro t ht
      obtain ⟨tr, htr, rfl⟩ := List.mem_map.1 ht
      exact hpre tr htr

/-- Witness of C5: in the scenario of the spec the allocated block stands at index 1, after
the one distinct block of the items before the first block-less item. -/
theorem C5_blocks_in_first_occurrence_order_witness :
    (getTxsBuild scenarioHeap [1, 2, 3]).unconfirmedBlock = some (BlockPtr.fresh 0) ∧
    List.indexOf (BlockPtr.fresh 0) (getTxsBuild scenarioHeap [1, 2, 3]).blocks
      = (([1, 2] : List Nat).filterMap scenarioHeap.txBlock).toFinset.card :=
  (C5_blocks_in_first_occurrence_order.1 scenarioHeap [1, 2, 3]).2.2.2 [1, 2] 3 [] (by decide)
    (by decide) (by decide)

/-! ## Claims about `sendSplitJni` and `getOutputsJni` -/

/-- C6: on two block-less transactions 3 and 4 the block list that `sendSplitJni` serialises
holds one block with transaction 3 only, while the placeholder block on the heap holds 3
and 4, and the loop of `getTxsJni` serialises 3 and 4 for the same input. -/
theorem C6_sendSplit_serialises_stale_copy :
    (sendSplitBuild scenarioHeap [3, 4]).blocks = [{ height := none, txs := [3] }] ∧
    ((sendSplitBuild scenarioHeap [3, 4]).heap.block (BlockPtr.fresh 0)).txs = [3, 4] ∧
    (sendSplitBuild scenarioHeap [3, 4]).heap.txBlock 4 = some (BlockPtr.fresh 0) ∧
    (getTxsBuild scenarioHeap [3, 4]).serialized = [{ height := none, txs := [3, 4] }] := by
  decide

theorem getOutputsLoop_error (e : EngineHeap) (l : List MoneroOutputWallet) :
    ∀ s : OutputsState, (∃ o ∈ l, e.txBlock o.tx = none) →
      getOutputsLoop e s l
        = Except.error (runtime_error "Need to handle unconfirmed output") := by
  induction l with
  | nil => intro s h; simp at h
  | cons o rest ih =>
    intro s h
    cases hb : e.txBlock o.tx with
    | none => simp [getOutputsLoop, getOutputsStep, hb]
    | some b =>
      have hrest : ∃ o ∈ rest, e.txBlock o.tx = none := by
        obtain ⟨o2, ho2, hn⟩ := h
        rcases List.mem_cons.1 ho2 with h1 | h1
        · rw [h1, hb] at hn; exact Option.noConfusion hn
        · exact ⟨o2, h1, hn⟩
      by_cases hseen : b ∈ s.seenBlockPtrs
      · simp [getOutputsLoop, getOutputsStep, hb, hseen, ih s hrest]
      · simp [getOutputsLoop, getOutputsStep, hb, hseen, ih _ hrest]

theorem getOutputsLoop_ok (e : EngineHeap) (l : List MoneroOutputWallet) :
    ∀ s : OutputsState, (∀ o ∈ l, e.txBlock o.tx ≠ none) →
      ∃ s1, getOutputsLoop e s l = Except.ok s1 ∧
        s1.blocks = s.blocks ++
          ((firstOccurrences (l.filterMap (fun o => e.txBlock o.tx))).filter
            (fun b => b ∉ s.seenBlockPtrs)).map e.block := by
  induction l with
  | nil => intro s _; exact ⟨s, rfl, by simp [firstOccurrences]⟩
  | cons o rest ih =>
    intro s h
    have hrest : ∀ o ∈ rest, e.txBlock o.tx ≠ none := fun o2 ho2 => h o2 (List.mem_cons_of_mem _ ho2)
    cases hb : e.txBlock o.tx with
    | none => exact absurd hb (h o (List.mem_cons_self _ _))
    | some b =>
      have hfm : (o :: rest).filterMap (fun o => e.txBlock o.tx)
          = b :: rest.filterMap (fun o => e.txBlock o.tx) := by
        simp [List.filterMap_cons, hb]
      by_cases hseen : b ∈ s.seenBlockPtrs
      · obtain ⟨s1, h1, h2⟩ := ih s hrest
        refine ⟨s1, by simp [getOutputsLoop, getOutputsStep, hb, hseen, h1], ?_⟩
        rw [h2, hfm, firstOccurrences, List.filter_cons_of_neg (by simpa using hseen),
          List.filter_filter]
        congr 2
        apply List.filter_congr
        intro x _
        by_cases hx : x = b <;> simp [hx, hseen]
      · obtain ⟨s1, h1, h2⟩ :=
          ih (OutputsState.mk (s.blocks ++ [e.block b]) (b :: s.seenBlockPtrs)) hrest
        refine ⟨s1, by simp [getOutputsLoop, getOutputsStep, hb, hseen, h1], ?_⟩
        rw [h2, hfm, firstOccurrences, List.filter_cons_of_pos (by simpa using hseen),
          List.filter_filter, List.map_cons, List.append_assoc, List.singleton_append]
        congr 3
        apply List.filter_congr
        intro x _
        by_cases hx : x = b <;> simp [hx]

/-- C7: the graph build of `getOutputsJni` throws exactly when some output's transaction
has no block, and what it throws is the runtime error of line 881; when every output's
transaction has a block it returns the distinct blocks of those transactions in the order
of first occurrence. -/
theorem C7_getOutputs_build (e : EngineHeap) (outputs : List MoneroOutputWallet) :
    ((∃ ex, getOutputsBuild e outputs = Except.error ex)
      ↔ ∃ o ∈ outputs, e.txBlock o.tx = none) ∧
    ((∃ o ∈ outputs, e.txBlock o.tx = none) →
      getOutputsBuild e outputs
        = Except.error (runtime_error "Need to handle unconfirmed output")) ∧
    ((∀ o ∈ outputs, e.txBlock o.tx ≠ none) →
      getOutputsBuild e outputs
        = Except.ok ((firstOccurrences (outputs.filterMap (fun o => e.txBlock o.tx))).map
            e.block)) := by
  have herr : (∃ o ∈ outputs, e.txBlock o.tx = none) →
      getOutputsBuild e outputs
        = Except.error (runtime_error "Need to handle unconfirmed output") := by
    intro h
    simp [getOutputsBuild, getOutputsLoop_error e outputs _ h]
  have hok : (∀ o ∈ outputs, e.txBlock o.tx ≠ none) →
      getOutputsBuild e outputs
        = Except.ok ((firstOccurrences (outputs.filterMap (fun o => e.txBlock o.tx))).map
            e.block) := by
    intro h
    obtain ⟨s1, h1, h2⟩ := getOutputsLoop_ok e outputs { blocks := [], seenBlockPtrs := [] } h
    simp [getOutputsBuild, h1, h2]
  refine ⟨⟨?_, fun h => ⟨_, herr h⟩⟩, herr, hok⟩
  rintro ⟨ex, hex⟩
  by_contra hc
  have hall : ∀ o ∈ outputs, e.txBlock o.tx ≠ none := fun o ho hn => hc ⟨o, ho, hn⟩
  rw [hok hall] at hex
  exact Except.noConfusion hex

/-- Witness of C7: outputs of the transactions 1, 2, 1 of the scenario give the one block
of height 100; an output of the block-less transaction 3 makes the build throw. -/
theorem C7_getOutputs_build_witness :
    getOutputsBuild scenarioHeap [⟨1⟩, ⟨2⟩, ⟨1⟩]
        = Except.ok ((firstOccurrences
            (([⟨1⟩, ⟨2⟩, ⟨1⟩] : List MoneroOutputWallet).filterMap
              (fun o => scenarioHeap.txBlock o.tx))).map scenarioHeap.block) ∧
    getOutputsBuild scenarioHeap [⟨1⟩, ⟨3⟩]
        = Except.error (runtime_error "Need to handle unconfirmed output") :=
  ⟨(C7_getOutputs_build scenarioHeap [⟨1⟩, ⟨2⟩, ⟨1⟩]).2.2 (by decide),
    (C7_getOutputs_build scenarioHeap [⟨1⟩, ⟨3⟩]).2.1 ⟨⟨3⟩, by decide, by decide⟩⟩

/-! ## Claims about the exception translator and the entry points -/

/-- C8: when the Java runtime finds the three classes, the translator raises
OutOfMemoryError for an allocation failure, IOException for an I/O failure, Exception for
any other standard exception, each with the text of `what()`, and Exception with the
fixed text for anything else. -/
theorem C8_translator_mapping (findClass : String → Bool) (ex : NativeFailure)
    (hOomCls : findClass "java/lang/OutOfMemoryError" = true)
    (hIoCls : findClass "java/io/IOException" = true)
    (hExcCls : findClass "java/lang/Exception" = true) :
    (ex.isBadAlloc = true →
      rethrow_cpp_exception_as_java_exception findClass ex
        = some { className := "java/lang/OutOfMemoryError", message := ex.what }) ∧
    (ex.isBadAlloc = false → ex.isIosFailure = true →
      rethrow_cpp_exception_as_java_exception findClass ex
        = some { className := "java/io/IOException", message := ex.what }) ∧
    (ex.isBadAlloc = false → ex.isIosFailure = false → ex.isStdException = true →
      rethrow_cpp_exception_as_java_exception findClass ex
        = some { className := "java/lang/Exception", message := ex.what }) ∧
    (ex.isBadAlloc = false → ex.isIosFailure = false → ex.isStdException = false →
      rethrow_cpp_exception_as_java_exception findClass ex
        = some { className := "java/lang/Exception", message := "Unidentfied C++ exception" }) := by
  refine ⟨?_, ?_, ?_, ?_⟩
  · intro h1
    simp [rethrow_cpp_exception_as_java_exception, h1, hOomCls]
  · intro h1 h2
    simp [rethrow_cpp_exception_as_java_exception, h1, h2, hIoCls]
  · intro h1 h2 h3
    simp [rethrow_cpp_exception_as_java_exception, h1, h2, h3, hExcCls]
  · intro h1 h2 h3
    simp [rethrow_cpp_exception_as_java_exception, h1, h2, h3, hExcCls]

/-- Witness of C8: a runtime error of the engine becomes a Java Exception with the same
text, and a thrown value that is no standard exception becomes the placeholder. -/
theorem C8_translator_mapping_witness :
    rethrow_cpp_exception_as_java_exception allClassesFound (runtime_error "not enough money")
      = some { className := "java/lang/Exception", message := "not enough money" } ∧
    rethrow_cpp_exception_as_java_exception allClassesFound
        { isBadAlloc := false, isIosFailure := false, isStdException := false, what := "" }
      = some { className := "java/lang/Exception", message := "Unidentfied C++ exception" } :=
  ⟨(C8_translator_mapping allClassesFound (runtime_error "not enough money") rfl rfl rfl).2.2.1
      rfl rfl rfl,
    (C8_translator_mapping allClassesFound
      { isBadAlloc := false, isIosFailure := false, isStdException := false, what := "" }
      rfl rfl rfl).2.2.2 rfl rfl rfl⟩

/-- Counterexample of C9: an engine failure with a message (ApplicationError) and a thrown
value that is no standard exception (Unknown) are of different categories, and the
translator raises `java/lang/Exception` for both. -/
theorem C9_counterexample :
    specCategory (runtime_error "not enough money")
      ≠ specCategory
          { isBadAlloc := false, isIosFailure := false, isStdException := false, what := "" } ∧
    hostErrorType allClassesFound (runtime_error "not enough money")
      = hostErrorType allClassesFound
          { isBadAlloc := false, isIosFailure := false, isStdException := false, what := "" } := by
  constructor
  · decide
  · rfl

/-- C9, amended: when the Java runtime finds the three classes, two failures get host errors
of the same type exactly when they are of the same category or both among
ApplicationError and Unknown; so ResourceExhaustion, IOFailure and the pair
ApplicationError/Unknown surface as three distinct host error types. -/
theorem C9_host_error_types (findClass : String → Bool) (e₁ e₂ : NativeFailure)
    (hOomCls : findClass "java/lang/OutOfMemoryError" = true)
    (hIoCls : findClass "java/io/IOException" = true)
    (hExcCls : findClass "java/lang/Exception" = true) :
    hostErrorType findClass e₁ = hostErrorType findClass e₂ ↔
      (specCategory e₁ = specCategory e₂ ∨
        ((specCategory e₁ = FailureCategory.ApplicationError
            ∨ specCategory e₁ = FailureCategory.Unknown) ∧
          (specCategory e₂ = FailureCategory.ApplicationError
            ∨ specCategory e₂ = FailureCategory.Unknown))) := by
  obtain ⟨a₁, b₁, c₁, w₁⟩ := e₁
  obtain ⟨a₂, b₂, c₂, w₂⟩ := e₂
  cases a₁ <;> cases b₁ <;> cases c₁ <;> cases a₂ <;> cases b₂ <;> cases c₂ <;>
    simp [hostErrorType, rethrow_cpp_exception_as_java_exception, specCategory, hOomCls, hIoCls, hExcCls]

/-- Witness of C9, amended: an allocation failure and an I/O failure get different host
error types. -/
theorem C9_host_error_types_witness :
    hostErrorType allClassesFound
        { isBadAlloc := true, isIosFailure := false, isStdException := true, what := "alloc" }
      ≠ hostErrorType allClassesFound
        { isBadAlloc := false, isIosFailure := true, isStdException := true, what := "io" } :=
  fun h =>
    absurd
      ((C9_host_error_types allClassesFound
        { isBadAlloc := true, isIosFailure := false, isStdException := true, what := "alloc" }
        { isBadAlloc := false, isIosFailure := true, isStdException := true, what := "io" }
        rfl rfl rfl).1 h)
      (by decide)

/-- C10: `getTxsJni` never lets an exception leave it, but `getOutputsJni` lets the runtime
error of its own graph build and a failure of the decoder leave it, and `openWalletJni`
lets a failure of the engine's constructor leave it. -/
theorem C10_failures_escape_untranslated :
    (∀ (Req : Type) (findClass : String → Bool)
        (deserializeTxRequest : String → Except NativeFailure Req)
        (getTxs : Req → Except NativeFailure (EngineHeap × List Nat))
        (jtxRequest : Option String) (ex : NativeFailure),
      getTxsJni findClass deserializeTxRequest getTxs jtxRequest ≠ Outcome.escaped ex) ∧
    @getOutputsJni String (fun text => Except.ok text)
        (fun _ => Except.ok (scenarioHeap, [⟨3⟩])) none
      = Outcome.escaped (runtime_error "Need to handle unconfirmed output") ∧
    @getOutputsJni String (fun _ => Except.error (runtime_error "malformed request"))
        (fun _ => Except.ok (scenarioHeap, [])) (some "?")
      = Outcome.escaped (runtime_error "malformed request") ∧
    openWalletJni (fun _ _ _ => Except.error (runtime_error "invalid password")) "wallet" "pw" 0
      = Outcome.escaped (runtime_error "invalid password") := by
  refine ⟨?_, rfl, rfl, rfl⟩
  intro Req findClass deserializeTxRequest getTxs jtxRequest ex
  unfold getTxsJni
  cases h1 : deserializeTxRequest (jtxRequest.getD "") with
  | error e1 => simp
  | ok txRequest =>
    cases h2 : getTxs txRequest with
    | error e2 => simp [h2]
    | ok r => simp [h2]

/-! ## Claims about host string buffers -/

/-- C11: `signJni`, `getTxsJni` and `importKeyImagesJni` release the buffer of their host
string when the call succeeds, but the buffer is still held when the engine or the decoder
fails; `getTxKeyJni`, which releases before its `try`, holds nothing on either path. -/
theorem C11_buffer_held_after_failure :
    (∀ (findClass : String → Bool) (msg signature : String),
      outstanding (signJni findClass (fun _ => Except.ok signature) (some msg)).1 = []) ∧
    (∀ (findClass : String → Bool) (msg : String) (ex : NativeFailure),
      outstanding (signJni findClass (fun _ => Except.error ex) (some msg)).1 = ["jmsg"]) ∧
    (∀ (payload : String) (e : EngineHeap) (txs : List Nat),
      outstanding
        (@getTxsJniBuffers String (fun text => Except.ok text) (fun _ => Except.ok (e, txs))
          (some payload)) = []) ∧
    (∀ (payload : String) (ex : NativeFailure),
      outstanding
        (@getTxsJniBuffers String (fun _ => Except.error ex)
          (fun _ => Except.ok (scenarioHeap, [])) (some payload)) = ["jtxRequest"]) ∧
    (∀ (payload : String) (ex : NativeFailure),
      outstanding
        (@getTxsJniBuffers String (fun text => Except.ok text) (fun _ => Except.error ex)
          (some payload)) = ["jtxRequest"]) ∧
    (∀ (findClass : String → Bool) (payload : String) (ex : NativeFailure),
      outstanding
        (@importKeyImagesJni String Nat findClass (fun text => Except.ok text)
          (fun _ => Except.error ex) payload).1 = ["jkeyImagesJson"]) ∧
    (∀ (findClass : String → Bool) (payload : String) (ex : NativeFailure),
      outstanding
        (@importKeyImagesJni String Nat findClass (fun _ => Except.error ex)
          (fun _ => Except.ok 0) payload).1 = ["jkeyImagesJson"]) ∧
    (∀ (findClass : String → Bool) (getTxKey : String → Except NativeFailure String)
        (jtxId : Option String),
      outstanding (getTxKeyJni findClass getTxKey jtxId).1 = []) := by
  refine ⟨?_, ?_, ?_, ?_, ?_, ?_, ?_, ?_⟩
  · intro findClass msg signature
    simp [signJni, getStringUTFChars, outstanding]
  · intro findClass msg ex
    simp [signJni, getStringUTFChars, outstanding]
  · intro payload e txs
    simp [getTxsJniBuffers, getStringUTFChars, outstanding]
  · intro payload ex
    simp [getTxsJniBuffers, getStringUTFChars, outstanding]
  · intro payload ex
    simp [getTxsJniBuffers, getStringUTFChars, outstanding]
  · intro findClass payload ex
    simp [importKeyImagesJni, outstanding]
  · intro findClass payload ex
    simp [importKeyImagesJni, outstanding]
  · intro findClass getTxKey jtxId
    cases jtxId with
    | none => cases h : getTxKey "" <;> simp [getTxKeyJni, getStringUTFChars, outstanding, h]
    | some text =>
      cases h : getTxKey text <;> simp [getTxKeyJni, getStringUTFChars, outstanding, h]

/-! ## Claims about the listener adapter -/

theorem deliver_detached (l : WalletJniListener) (hl : l.jlistener = none) (t : JvmThread)
    (ev : ListenerEvent) (hostThrows : Bool) :
    l.deliver t ev hostThrows = (t, [JniEvent.lock, JniEvent.unlock]) := by
  cases ev <;>
    simp [WalletJniListener.deliver, WalletJniListener.onNewBlock,
      WalletJniListener.onSyncProgress, hl]

theorem deliverAll_detached (l : WalletJniListener) (hl : l.jlistener = none)
    (events : List (ListenerEvent × Bool)) :
    ∀ t : JvmThread, (l.deliverAll t events).1 = t ∧
      ∀ e ∈ (l.deliverAll t events).2, e = JniEvent.lock ∨ e = JniEvent.unlock := by
  induction events with
  | nil => intro t; simp [WalletJniListener.deliverAll]
  | cons p rest ih =>
    intro t
    obtain ⟨ev, hostThrows⟩ := p
    simp only [WalletJniListener.deliverAll, deliver_detached l hl]
    refine ⟨(ih t).1, ?_⟩
    intro e he
    rcases List.mem_append.1 he with h1 | h1
    · simpa using h1
    · exact (ih t).2 e h1

/-- C12: after `deleteGlobalJavaRef` the adapter's host reference is `nullptr`, and every
later `onNewBlock` or `onSyncProgress`, for every event and any number of them, only takes
and releases the lock: the thread is left as it was, nothing is attached and the host
callback is not called. -/
theorem C12_no_delivery_after_detach (l : WalletJniListener) (t : JvmThread)
    (events : List (ListenerEvent × Bool)) :
    l.deleteGlobalJavaRef.1.jlistener = none ∧
    (∀ (ev : ListenerEvent) (hostThrows : Bool),
      l.deleteGlobalJavaRef.1.deliver t ev hostThrows
        = (t, [JniEvent.lock, JniEvent.unlock])) ∧
    (l.deleteGlobalJavaRef.1.deliverAll t events).1 = t ∧
    (∀ e ∈ (l.deleteGlobalJavaRef.1.deliverAll t events).2,
      e = JniEvent.lock ∨ e = JniEvent.unlock) := by
  have hl : l.deleteGlobalJavaRef.1.jlistener = none := rfl
  exact ⟨hl, fun ev hostThrows => deliver_detached _ hl t ev hostThrows,
    (deliverAll_detached _ hl events t).1, (deliverAll_detached _ hl events t).2⟩

/-- Witness of C12: an adapter holding the host object 9 is detached; a new block and a
sync progress delivered afterwards only take and release the lock. -/
theorem C12_no_delivery_after_detach_witness :
    ((WalletJniListener.create 9).deleteGlobalJavaRef.1.deliverAll nativeThread
        [(ListenerEvent.newBlock 100, false),
         (ListenerEvent.syncProgress 100 0 200 0 "syncing", true)]).2
      = [JniEvent.lock, JniEvent.unlock, JniEvent.lock, JniEvent.unlock] ∧
    ∀ e ∈ ((WalletJniListener.create 9).deleteGlobalJavaRef.1.deliverAll nativeThread
        [(ListenerEvent.newBlock 100, false),
         (ListenerEvent.syncProgress 100 0 200 0 "syncing", true)]).2,
      e = JniEvent.lock ∨ e = JniEvent.unlock :=
  ⟨by decide,
    (C12_no_delivery_after_detach (WalletJniListener.create 9) nativeThread
      [(ListenerEvent.newBlock 100, false),
       (ListenerEvent.syncProgress 100 0 200 0 "syncing", true)]).2.2.2⟩

/-- C16: a delivery leaves the calling thread's registration with the Java runtime as it
found it. A thread that was registered is neither attached nor detached by the bridge; a
thread that was not registered, and can be, is attached, then the host callback is called
once, then the thread is detached. -/
theorem C16_thread_registration_restored (l : WalletJniListener) (t : JvmThread)
    (ev : ListenerEvent) (hostThrows : Bool) :
    (l.deliver t ev hostThrows).1.attached = t.attached ∧
    (t.attached = true →
      JniEvent.detachCurrentThread ∉ (l.deliver t ev hostThrows).2 ∧
      (l.deliver t ev hostThrows).2.filter JniEvent.isAttach = []) ∧
    (l.jlistener ≠ none → t.attached = false → t.attachResult = 0 →
      ∃ call, call.isCall = true ∧
        (l.deliver t ev hostThrows).2.filter (fun e => e ≠ JniEvent.exceptionDescribe)
          = [JniEvent.lock, JniEvent.attachCurrentThread 0, call,
             JniEvent.detachCurrentThread, JniEvent.unlock]) := by
  obtain ⟨a, v, r, p⟩ := t
  obtain ⟨jl⟩ := l
  cases jl with
  | none =>
    cases ev <;>
      simp [WalletJniListener.deliver, WalletJniListener.onNewBlock,
        WalletJniListener.onSyncProgress, JniEvent.isAttach]
  | some target =>
    by_cases hr : r = 0
    · subst hr
      cases ev <;> cases a <;> cases v <;> cases p <;> cases hostThrows <;>
        simp [WalletJniListener.deliver, WalletJniListener.onNewBlock,
          WalletJniListener.onSyncProgress, attachJVM, detachJVM, JvmThread.GetEnv,
          JvmThread.AttachCurrentThread, JvmThread.DetachCurrentThread, JNI_OK, JNI_ERR,
          JNI_EDETACHED, JNI_EVERSION, JniEvent.isAttach, JniEvent.isCall]
    · cases ev <;> cases a <;> cases v <;> cases p <;> cases hostThrows <;>
        simp [WalletJniListener.deliver, WalletJniListener.onNewBlock,
          WalletJniListener.onSyncProgress, attachJVM, detachJVM, JvmThread.GetEnv,
          JvmThread.AttachCurrentThread, JvmThread.DetachCurrentThread, JNI_OK, JNI_ERR,
          JNI_EDETACHED, JNI_EVERSION, JniEvent.isAttach, JniEvent.isCall, hr]

/-- Witness of C16: a new block delivered on a thread the runtime does not know attaches
the thread, calls the host and detaches the thread again. -/
theorem C16_thread_registration_restored_witness :
    ((WalletJniListener.create 9).deliver nativeThread (ListenerEvent.newBlock 100) false).2
      = [JniEvent.lock, JniEvent.attachCurrentThread 0,
         JniEvent.callVoidMethod 9 "onNewBlock" "(J)V" [JValue.long 100],
         JniEvent.detachCurrentThread, JniEvent.unlock] ∧
    ∃ call, call.isCall = true ∧
      ((WalletJniListener.create 9).deliver nativeThread (ListenerEvent.newBlock 100)
          false).2.filter (fun e => e ≠ JniEvent.exceptionDescribe)
        = [JniEvent.lock, JniEvent.attachCurrentThread 0, call,
           JniEvent.detachCurrentThread, JniEvent.unlock] :=
  ⟨by decide,
    (C16_thread_registration_restored (WalletJniListener.create 9) nativeThread
      (ListenerEvent.newBlock 100) false).2.2 (by decide) rfl rfl⟩

/-- C17: when `attachJVM` returns `JNI_ERR`, a delivery on an installed adapter takes the
lock, does what `attachJVM` did (at most one call of `AttachCurrentThread`, none of the
host callback) and releases the lock; no Java exception is raised and the thread's
registration is unchanged. -/
theorem C17_attach_failure_drops_event (l : WalletJniListener) (t : JvmThread)
    (ev : ListenerEvent) (hostThrows : Bool) (hl : l.jlistener ≠ none)
    (herr : (attachJVM t).envStat = JNI_ERR) :
    (l.deliver t ev hostThrows).2
      = [JniEvent.lock] ++ (attachJVM t).events ++ [JniEvent.unlock] ∧
    (l.deliver t ev hostThrows).2.filter JniEvent.isCall = [] ∧
    ((l.deliver t ev hostThrows).2.filter JniEvent.isAttach).length ≤ 1 ∧
    lockHeld (l.deliver t ev hostThrows).2 = false ∧
    (l.deliver t ev hostThrows).1.exceptionPending = t.exceptionPending ∧
    (l.deliver t ev hostThrows).1.attached = t.attached := by
  obtain ⟨a, v, r, p⟩ := t
  obtain ⟨jl⟩ := l
  cases jl with
  | none => exact absurd rfl hl
  | some target =>
    by_cases hr : r = 0
    · subst hr
      cases ev <;> cases a <;> cases v <;> cases p <;> cases hostThrows <;>
        simp_all [WalletJniListener.deliver, WalletJniListener.onNewBlock,
          WalletJniListener.onSyncProgress, attachJVM, detachJVM, JvmThread.GetEnv,
          JvmThread.AttachCurrentThread, JvmThread.DetachCurrentThread, JNI_OK, JNI_ERR,
          JNI_EDETACHED, JNI_EVERSION, JniEvent.isAttach, JniEvent.isCall, lockHeld]
    · cases ev <;> cases a <;> cases v <;> cases p <;> cases hostThrows <;>
        simp_all [WalletJniListener.deliver, WalletJniListener.onNewBlock,
          WalletJniListener.onSyncProgress, attachJVM, detachJVM, JvmThread.GetEnv,
          JvmThread.AttachCurrentThread, JvmThread.DetachCurrentThread, JNI_OK, JNI_ERR,
          JNI_EDETACHED, JNI_EVERSION, JniEvent.isAttach, JniEvent.isCall, lockHeld]

/-- Witness of C17: a new block delivered on a thread that cannot be attached. -/
theorem C17_attach_failure_drops_event_witness :
    ((WalletJniListener.create 9).deliver unattachableThread (ListenerEvent.newBlock 100)
        false).2
      = [JniEvent.lock, JniEvent.attachCurrentThread (-1), JniEvent.unlock] ∧
    lockHeld ((WalletJniListener.create 9).deliver unattachableThread
        (ListenerEvent.newBlock 100) false).2 = false :=
  ⟨by decide,
    (C17_attach_failure_drops_event (WalletJniListener.create 9) unattachableThread
      (ListenerEvent.newBlock 100) false (by decide) (by decide)).2.2.2.1⟩

/-! ## Claims about `setListenerJni` -/

theorem getHandle_wallet (inst : HostObject) :
    getHandle inst "jniWalletHandle" = inst.jniWalletHandle := by
  simp [getHandle, JNI_WALLET_HANDLE]

theorem getHandle_listener (inst : HostObject) :
    getHandle inst JNI_LISTENER_HANDLE = inst.jniListenerHandle := by
  simp [getHandle, JNI_WALLET_HANDLE, JNI_LISTENER_HANDLE]

theorem adapterAt_deleteListener (s : NativeState) (a : Nat) :
    (s.deleteListener a).adapterAt a = none := by
  unfold NativeState.deleteListener
  cases h : s.adapterAt a with
  | none => simpa [NativeState.adapterAt] using h
  | some l => simp [NativeState.adapterAt, List.find?_eq_none, List.mem_filter]

theorem globalRefs_teardown (s : NativeState) (a : Nat) :
    ((s.deleteGlobalJavaRef a).deleteListener a).globalRefs
      = (match s.adapterAt a with
        | some l =>
          (match l.jlistener with
          | some ref => s.globalRefs.erase ref
          | none => s.globalRefs)
        | none => s.globalRefs) := by
  have h1 : ∀ t : NativeState, (t.deleteListener a).globalRefs = t.globalRefs := by
    intro t
    unfold NativeState.deleteListener
    cases t.adapterAt a <;> rfl
  rw [h1]
  unfold NativeState.deleteGlobalJavaRef
  cases h : s.adapterAt a with
  | none => rfl
  | some l => cases hl : l.jlistener <;> simp [hl]

/-- C13: called while an adapter is installed, `setListenerJni` first clears the engine's
listener, then releases the old adapter's host reference, then frees the old adapter, and
only then, when a host callback is given, creates the new adapter (at an address chosen
with the old one already freed) and installs it. After the three steps the engine has no
listener, no adapter lives at the old address and the old host reference is released. -/
theorem C13_old_listener_torn_down_first (alloc : Allocator) (s : NativeState)
    (inst : HostObject) (jlistener : Option Nat) (hold : inst.jniListenerHandle ≠ 0) :
    (setListenerJni alloc s inst jlistener).trace
      = [Action.setListener inst.jniWalletHandle none,
         Action.deleteGlobalJavaRef inst.jniListenerHandle,
         Action.deleteListener inst.jniListenerHandle]
        ++ (match jlistener with
            | none => []
            | some callback =>
              [Action.newListener (setListenerJni alloc s inst jlistener).ret callback,
               Action.setListener inst.jniWalletHandle
                 (some (setListenerJni alloc s inst jlistener).ret)]) ∧
    ((((s.setListener inst.jniWalletHandle none).deleteGlobalJavaRef
        inst.jniListenerHandle).deleteListener inst.jniListenerHandle).walletListener
          inst.jniWalletHandle = none) ∧
    ((((s.setListener inst.jniWalletHandle none).deleteGlobalJavaRef
        inst.jniListenerHandle).deleteListener inst.jniListenerHandle).adapterAt
          inst.jniListenerHandle = none) ∧
    (∀ ref, s.adapterAt inst.jniListenerHandle = some { jlistener := some ref } →
      (((s.setListener inst.jniWalletHandle none).deleteGlobalJavaRef
        inst.jniListenerHandle).deleteListener inst.jniListenerHandle).globalRefs
          = s.globalRefs.erase ref) ∧
    (jlistener ≠ none →
      (setListenerJni alloc s inst jlistener).ret
        = alloc.alloc
            (((s.setListener inst.jniWalletHandle none).deleteGlobalJavaRef
              inst.jniListenerHandle).deleteListener inst.jniListenerHandle).liveAddresses) := by
  refine ⟨?_, ?_, adapterAt_deleteListener _ _, ?_, ?_⟩
  · cases jlistener <;>
      simp [setListenerJni, getHandle_wallet, getHandle_listener, hold]
  · have h1 : ∀ (t : NativeState) (a : Nat),
        (t.deleteListener a).walletListener = t.walletListener := by
      intro t a
      unfold NativeState.deleteListener
      cases t.adapterAt a <;> rfl
    have h2 : ∀ (t : NativeState) (a : Nat),
        (t.deleteGlobalJavaRef a).walletListener = t.walletListener := by
      intro t a
      unfold NativeState.deleteGlobalJavaRef
      cases t.adapterAt a <;> rfl
    rw [h1, h2]
    simp [NativeState.setListener]
  · intro ref href
    rw [globalRefs_teardown]
    have : (s.setListener inst.jniWalletHandle none).adapterAt inst.jniListenerHandle
        = some { jlistener := some ref } := href
    rw [this]
    rfl
  · intro hj
    cases jlistener with
    | none => exact absurd rfl hj
    | some callback =>
      simp [setListenerJni, getHandle_wallet, getHandle_listener, hold]

/-- Witness of C13: replacing the installed adapter 6 of wallet 5 by an adapter for the
host object 10. -/
theorem C13_old_listener_torn_down_first_witness :
    (setListenerJni bumpAllocator installedState installedHost (some 10)).trace
      = [Action.setListener 5 none, Action.deleteGlobalJavaRef 6, Action.deleteListener 6,
         Action.newListener 6 10, Action.setListener 5 (some 6)] :=
  (C13_old_listener_torn_down_first bumpAllocator installedState installedHost (some 10)
    (by decide)).1

theorem find_append_fresh (A : List (Nat × WalletJniListener)) (a : Nat)
    (l : WalletJniListener) (ha : a ∉ A.map Prod.fst) :
    ((A ++ [(a, l)]).find? (fun p => p.1 = a)).map Prod.snd = some l := by
  have hA : A.find? (fun p => decide (p.1 = a)) = none := by
    rw [List.find?_eq_none]
    intro x hx hxa
    exact ha (List.mem_map.2 ⟨x, hx, by simpa using hxa⟩)
  simp [List.find?_append, hA]

/-- The state in which `setListenerJni` creates the new adapter: the old one is gone. -/
theorem setListenerJni_some (alloc : Allocator) (s : NativeState) (inst : HostObject)
    (callback : Nat) :
    ∃ c : NativeState,
      (setListenerJni alloc s inst (some callback)).ret = alloc.alloc c.liveAddresses ∧
      (setListenerJni alloc s inst (some callback)).state.adapters
        = c.adapters ++ [(alloc.alloc c.liveAddresses, WalletJniListener.create callback)] ∧
      (setListenerJni alloc s inst (some callback)).state.walletListener inst.jniWalletHandle
        = some (alloc.alloc c.liveAddresses) ∧
      (setListenerJni alloc s inst (some callback)).state.wallets = c.wallets ∧
      c.adapters
        = (if inst.jniListenerHandle ≠ 0 then
            (((s.setListener inst.jniWalletHandle none).deleteGlobalJavaRef
              inst.jniListenerHandle).deleteListener inst.jniListenerHandle).adapters
          else s.adapters) := by
  by_cases hold : inst.jniListenerHandle = 0
  · refine ⟨s.setListener inst.jniWalletHandle none, ?_, ?_, ?_, ?_, ?_⟩ <;>
      simp [setListenerJni, getHandle_wallet, getHandle_listener, hold, NativeState.setListener]
  · refine ⟨((s.setListener inst.jniWalletHandle none).deleteGlobalJavaRef
        inst.jniListenerHandle).deleteListener inst.jniListenerHandle, ?_, ?_, ?_, ?_, ?_⟩ <;>
      simp [setListenerJni, getHandle_wallet, getHandle_listener, hold, NativeState.setListener]

/-- C14: with no host callback `setListenerJni` returns 0 and leaves the engine without
listener; with a host callback it returns a non-zero handle, the address of an adapter
created in this call, which holds the callback and is the engine's listener when the call
returns. -/
theorem C14_setListener_result (alloc : Allocator) (s : NativeState) (inst : HostObject) :
    ((setListenerJni alloc s inst none).ret = 0 ∧
      (setListenerJni alloc s inst none).state.walletListener inst.jniWalletHandle = none) ∧
    (∀ callback : Nat,
      (setListenerJni alloc s inst (some callback)).ret ≠ 0 ∧
      Action.newListener (setListenerJni alloc s inst (some callback)).ret callback
        ∈ (setListenerJni alloc s inst (some callback)).trace ∧
      (setListenerJni alloc s inst (some callback)).state.adapterAt
          (setListenerJni alloc s inst (some callback)).ret
        = some { jlistener := some callback } ∧
      (setListenerJni alloc s inst (some callback)).state.walletListener inst.jniWalletHandle
        = some (setListenerJni alloc s inst (some callback)).ret) := by
  constructor
  · have h1 : ∀ (t : NativeState) (a : Nat),
        (t.deleteListener a).walletListener = t.walletListener := by
      intro t a
      unfold NativeState.deleteListener
      cases t.adapterAt a <;> rfl
    have h2 : ∀ (t : NativeState) (a : Nat),
        (t.deleteGlobalJavaRef a).walletListener = t.walletListener := by
      intro t a
      unfold NativeState.deleteGlobalJavaRef
      cases t.adapterAt a <;> rfl
    by_cases hold : inst.jniListenerHandle = 0
    · simp [setListenerJni, getHandle_wallet, getHandle_listener, hold, NativeState.setListener]
    · simp [setListenerJni, getHandle_wallet, getHandle_listener, hold, h1, h2,
        NativeState.setListener]
  · intro callback
    obtain ⟨c, hret, hads, hwl, _, _⟩ := setListenerJni_some alloc s inst callback
    refine ⟨?_, ?_, ?_, ?_⟩
    · rw [hret]; exact alloc.alloc_ne_zero _
    · simp [setListenerJni]
    · have hfresh : alloc.alloc c.liveAddresses ∉ c.adapters.map Prod.fst := by
        intro hm
        exact alloc.alloc_fresh c.liveAddresses
          (by unfold NativeState.liveAddresses; exact List.mem_append_right _ hm)
      unfold NativeState.adapterAt
      rw [hads, hret]
      exact find_append_fresh _ _ _ hfresh
    · rw [hwl, hret]

/-- Witness of C14: on the installed state a call with the host object 10 returns the
handle 6 of an adapter holding 10, which is the listener of wallet 5. -/
theorem C14_setListener_result_witness :
    (setListenerJni bumpAllocator installedState installedHost (some 10)).ret ≠ 0 ∧
    (setListenerJni bumpAllocator installedState installedHost (some 10)).state.adapterAt
        (setListenerJni bumpAllocator installedState installedHost (some 10)).ret
      = some { jlistener := some 10 } ∧
    (setListenerJni bumpAllocator installedState installedHost (some 10)).state.walletListener
        installedHost.jniWalletHandle
      = some (setListenerJni bumpAllocator installedState installedHost (some 10)).ret :=
  ⟨((C14_setListener_result bumpAllocator installedState installedHost).2 10).1,
    ((C14_setListener_result bumpAllocator installedState installedHost).2 10).2.2.1,
    ((C14_setListener_result bumpAllocator installedState installedHost).2 10).2.2.2⟩

theorem teardown_adapters (s : NativeState) (A : List (Nat × WalletJniListener)) (f : Nat)
    (l : WalletJniListener) (hs : s.adapters = A ++ [(f, l)]) (hf : f ∉ A.map Prod.fst) :
    ((s.deleteGlobalJavaRef f).deleteListener f).adapters = A := by
  have hne : ∀ x ∈ A, x.1 ≠ f := fun x hx hxf => hf (List.mem_map.2 ⟨x, hx, hxf⟩)
  have hat : s.adapterAt f = some l := by
    unfold NativeState.adapterAt
    rw [hs]
    exact find_append_fresh A f l hf
  have hmapA : A.map (fun p => if p.1 = f then (p.1, l.deleteGlobalJavaRef.1) else p) = A := by
    conv_rhs => rw [← List.map_id A]
    apply List.map_congr_left
    intro x hx
    simp [hne x hx]
  have h1 : (s.deleteGlobalJavaRef f).adapters = A ++ [(f, l.deleteGlobalJavaRef.1)] := by
    unfold NativeState.deleteGlobalJavaRef
    rw [hat]
    show s.adapters.map _ = _
    rw [hs, List.map_append, hmapA]
    simp
  have hat2 : (s.deleteGlobalJavaRef f).adapterAt f = some l.deleteGlobalJavaRef.1 := by
    unfold NativeState.adapterAt
    rw [h1]
    exact find_append_fresh A f _ hf
  unfold NativeState.deleteListener
  rw [hat2]
  show (s.deleteGlobalJavaRef f).adapters.filter _ = A
  rw [h1, List.filter_append]
  have hfA : A.filter (fun p => decide (p.1 ≠ f)) = A := by
    rw [List.filter_eq_self]
    intro x hx
    simpa using hne x hx
  rw [hfA]
  simp

theorem setListenerJni_none_adapters (alloc : Allocator) (s : NativeState) (inst : HostObject) :
    (setListenerJni alloc s inst none).state.adapters
      = (if inst.jniListenerHandle ≠ 0 then
          (((s.setListener inst.jniWalletHandle none).deleteGlobalJavaRef
            inst.jniListenerHandle).deleteListener inst.jniListenerHandle).adapters
        else s.adapters) := by
  by_cases hold : inst.jniListenerHandle = 0 <;>
    simp [setListenerJni, getHandle_wallet, getHandle_listener, hold, NativeState.setListener]

/-- The host's listener-handle variable tells which adapter of its own is live. -/
theorem hostSetListener_invariant (alloc : Allocator) (A : List (Nat × WalletJniListener))
    (p : NativeState × HostObject) (jlistener : Option Nat)
    (h : (p.2.jniListenerHandle = 0 ∧ p.1.adapters = A) ∨
      (p.2.jniListenerHandle ≠ 0 ∧ p.2.jniListenerHandle ∉ A.map Prod.fst ∧
        ∃ l, p.1.adapters = A ++ [(p.2.jniListenerHandle, l)])) :
    ((hostSetListener alloc p jlistener).2.jniListenerHandle = 0 ∧
        (hostSetListener alloc p jlistener).1.adapters = A) ∨
      ((hostSetListener alloc p jlistener).2.jniListenerHandle ≠ 0 ∧
        (hostSetListener alloc p jlistener).2.jniListenerHandle ∉ A.map Prod.fst ∧
        ∃ l, (hostSetListener alloc p jlistener).1.adapters
          = A ++ [((hostSetListener alloc p jlistener).2.jniListenerHandle, l)]) := by
  obtain ⟨s, inst⟩ := p
  have hclear : (if inst.jniListenerHandle ≠ 0 then
        (((s.setListener inst.jniWalletHandle none).deleteGlobalJavaRef
          inst.jniListenerHandle).deleteListener inst.jniListenerHandle).adapters
      else s.adapters) = A := by
    rcases h with ⟨h0, hA⟩ | ⟨h0, hf, l, hA⟩
    · simp only at h0 hA
      rw [if_neg (not_not.2 h0)]; exact hA
    · simp only at h0 hf hA
      rw [if_pos h0]
      exact teardown_adapters (s.setListener inst.jniWalletHandle none) A _ l hA hf
  cases jlistener with
  | none =>
    left
    refine ⟨by simp [hostSetListener, setListenerJni], ?_⟩
    show (setListenerJni alloc s inst none).state.adapters = A
    rw [setListenerJni_none_adapters, hclear]
  | some callback =>
    right
    obtain ⟨c, hret, hads, _, _, hc⟩ := setListenerJni_some alloc s inst callback
    rw [hclear] at hc
    have hfresh : alloc.alloc c.liveAddresses ∉ A.map Prod.fst := by
      intro hm
      rw [← hc] at hm
      exact alloc.alloc_fresh c.liveAddresses
        (by unfold NativeState.liveAddresses; exact List.mem_append_right _ hm)
    refine ⟨?_, ?_, WalletJniListener.create callback, ?_⟩
    · show (setListenerJni alloc s inst (some callback)).ret ≠ 0
      rw [hret]; exact alloc.alloc_ne_zero _
    · show (setListenerJni alloc s inst (some callback)).ret ∉ _
      rw [hret]; exact hfresh
    · show (setListenerJni alloc s inst (some callback)).state.adapters
        = A ++ [((setListenerJni alloc s inst (some callback)).ret, _)]
      rw [hads, hret, hc]

theorem hostSetListener_foldl (alloc : Allocator) (A : List (Nat × WalletJniListener))
    (calls : List (Option Nat)) :
    ∀ p : NativeState × HostObject,
      ((p.2.jniListenerHandle = 0 ∧ p.1.adapters = A) ∨
        (p.2.jniListenerHandle ≠ 0 ∧ p.2.jniListenerHandle ∉ A.map Prod.fst ∧
          ∃ l, p.1.adapters = A ++ [(p.2.jniListenerHandle, l)])) →
      (((calls.foldl (hostSetListener alloc) p).2.jniListenerHandle = 0 ∧
          (calls.foldl (hostSetListener alloc) p).1.adapters = A) ∨
        ((calls.foldl (hostSetListener alloc) p).2.jniListenerHandle ≠ 0 ∧
          (calls.foldl (hostSetListener alloc) p).2.jniListenerHandle ∉ A.map Prod.fst ∧
          ∃ l, (calls.foldl (hostSetListener alloc) p).1.adapters
            = A ++ [((calls.foldl (hostSetListener alloc) p).2.jniListenerHandle, l)])) := by
  induction calls with
  | nil => intro p h; exact h
  | cons jl rest ih =>
    intro p h
    exact ih (hostSetListener alloc p jl) (hostSetListener_invariant alloc A p jl h)

/-- C15: let the host call `setListenerJni` any number of times on one host object whose
listener-handle variable is 0 at the start, storing each returned handle in that variable.
After each call the live adapters are those that were live at the start plus at most one,
and that one is the adapter the variable designates. -/
theorem C15_at_most_one_adapter (alloc : Allocator) (s : NativeState) (inst : HostObject)
    (calls : List (Option Nat)) (h0 : inst.jniListenerHandle = 0) :
    ∃ own : List (Nat × WalletJniListener),
      (calls.foldl (hostSetListener alloc) (s, inst)).1.adapters = s.adapters ++ own ∧
      own.length ≤ 1 ∧
      ∀ a ∈ own, a.1 = (calls.foldl (hostSetListener alloc) (s, inst)).2.jniListenerHandle := by
  rcases hostSetListener_foldl alloc s.adapters calls (s, inst) (Or.inl ⟨h0, rfl⟩) with
    ⟨_, hA⟩ | ⟨_, _, l, hA⟩
  · exact ⟨[], by rw [hA]; simp, by simp, by simp⟩
  · exact ⟨[(_, l)], hA, by simp, by simp⟩

/-- Witness of C15: three calls on a fresh host object, with the host objects 9 and 10 and
then without callback, leave no adapter. -/
theorem C15_at_most_one_adapter_witness :
    ∃ own : List (Nat × WalletJniListener),
      ([some 9, some 10, none].foldl (hostSetListener bumpAllocator)
          (NativeState.empty, { jniWalletHandle := 5, jniListenerHandle := 0 })).1.adapters
        = NativeState.empty.adapters ++ own ∧
      own.length ≤ 1 ∧
      ∀ a ∈ own, a.1 = ([some 9, some 10, none].foldl (hostSetListener bumpAllocator)
          (NativeState.empty, { jniWalletHandle := 5, jniListenerHandle := 0 })).2.jniListenerHandle :=
  C15_at_most_one_adapter bumpAllocator NativeState.empty
    { jniWalletHandle := 5, jniListenerHandle := 0 } [some 9, some 10, none] rfl

/-! ## Claims about `closeJni` and handles -/

/-- C21: in `getTxsJni`, `getTransfersJni`, `getOutputsJni`, `sendSplitJni` and
`createPaymentUriJni` an absent payload gives exactly the call with the empty text; in
`sweepOutputJni` and `importKeyImagesJni` an absent payload gives no defined result (the
text is made from a null pointer), although the empty text itself is decoded and served. -/
theorem C21_absent_payload :
    (∀ (Req : Type) (findClass : String → Bool)
        (deserialize : String → Except NativeFailure Req)
        (getTxs : Req → Except NativeFailure (EngineHeap × List Nat)),
      getTxsJni findClass deserialize getTxs none
        = getTxsJni findClass deserialize getTxs (some "")) ∧
    (∀ (Req : Type) (findClass : String → Bool)
        (deserialize : String → Except NativeFailure Req)
        (getTransfers : Req → Except NativeFailure (EngineHeap × List MoneroTransfer)),
      getTransfersJni findClass deserialize getTransfers none
        = getTransfersJni findClass deserialize getTransfers (some "")) ∧
    (∀ (Req : Type) (deserialize : String → Except NativeFailure Req)
        (getOutputs : Req → Except NativeFailure (EngineHeap × List MoneroOutputWallet)),
      getOutputsJni deserialize getOutputs none = getOutputsJni deserialize getOutputs (some "")) ∧
    (∀ (Req : Type) (findClass : String → Bool)
        (deserialize : String → Except NativeFailure Req)
        (sendSplit : Req → Except NativeFailure (EngineHeap × List Nat)),
      sendSplitJni findClass deserialize sendSplit none
        = sendSplitJni findClass deserialize sendSplit (some "")) ∧
    (∀ (Req : Type) (findClass : String → Bool)
        (deserialize : String → Except NativeFailure Req)
        (createPaymentUri : Req → Except NativeFailure String),
      createPaymentUriJni findClass deserialize createPaymentUri none
        = createPaymentUriJni findClass deserialize createPaymentUri (some "")) ∧
    (∀ (Req : Type) (findClass : String → Bool)
        (deserialize : String → Except NativeFailure Req)
        (sweepOutput : Req → Except NativeFailure Nat),
      sweepOutputJni findClass deserialize sweepOutput none = none) ∧
    (∀ (Images Result : Type) (findClass : String → Bool)
        (deserialize : String → Except NativeFailure Images)
        (importKeyImages : Images → Except NativeFailure Result),
      importKeyImagesJniNullable findClass deserialize importKeyImages none = none) ∧
    @sweepOutputJni String allClassesFound (fun text => Except.ok text) (fun _ => Except.ok 1)
        (some "")
      = some (Outcome.returned [("blocks", [{ height := none, txs := [1] }])]) :=
  ⟨fun _ _ _ _ => rfl, fun _ _ _ _ => rfl, fun _ _ _ => rfl, fun _ _ _ _ => rfl,
    fun _ _ _ _ => rfl, fun _ _ _ _ => rfl, fun _ _ _ _ _ => rfl, rfl⟩

/-- Counterexample of C22: for a request the decoder rejects, `getTxsJni` raises
`java/lang/Exception`, the same host error as for an engine failure with that exception,
whose category is not InvalidArgument; `getOutputsJni` raises no host error, the exception
leaves it. -/
theorem C22_counterexample :
    @getTxsJni String allClassesFound (fun _ => Except.error (runtime_error "malformed request"))
        (fun _ => Except.ok (scenarioHeap, [])) (some "?")
      = Outcome.translated
          (some { className := "java/lang/Exception", message := "malformed request" }) ∧
    @getTxsJni String allClassesFound (fun text => Except.ok text)
        (fun _ => Except.error (runtime_error "malformed request")) (some "?")
      = Outcome.translated
          (some { className := "java/lang/Exception", message := "malformed request" }) ∧
    specCategory (runtime_error "malformed request") ≠ FailureCategory.InvalidArgument ∧
    @getOutputsJni String (fun _ => Except.error (runtime_error "malformed request"))
        (fun _ => Except.ok (scenarioHeap, [])) (some "?")
      = Outcome.escaped (runtime_error "malformed request") := by
  refine ⟨rfl, rfl, by decide, rfl⟩

/-- C22, amended: when the decoder throws, `getTxsJni` and `getTransfersJni` return with the
host error the translator raises for the decoder's exception, and in `getTxsJni`,
`getTransfersJni` and `getOutputsJni` the engine's query operation is not invoked. -/
theorem C22_decode_failure {Req : Type} (findClass : String → Bool)
    (deserialize : String → Except NativeFailure Req) (payload : Option String)
    (ex : NativeFailure) (hfail : deserialize (payload.getD "") = Except.error ex) :
    (∀ getTxs : Req → Except NativeFailure (EngineHeap × List Nat),
      getTxsJni findClass deserialize getTxs payload
        = Outcome.translated (rethrow_cpp_exception_as_java_exception findClass ex)) ∧
    getTxsJniQueries deserialize payload = [] ∧
    (∀ getTransfers : Req → Except NativeFailure (EngineHeap × List MoneroTransfer),
      getTransfersJni findClass deserialize getTransfers payload
        = Outcome.translated (rethrow_cpp_exception_as_java_exception findClass ex)) ∧
    getTransfersJniQueries deserialize payload = [] ∧
    getOutputsJniQueries deserialize payload = [] := by
  refine ⟨?_, ?_, ?_, ?_, ?_⟩
  · intro getTxs
    simp [getTxsJni, hfail]
  · simp [getTxsJniQueries, hfail]
  · intro getTransfers
    simp [getTransfersJni, hfail]
  · simp [getTransfersJniQueries, hfail]
  · simp [getOutputsJniQueries, hfail]

/-- Witness of C22, amended: a decoder that rejects every text. -/
theorem C22_decode_failure_witness :
    @getTxsJniQueries String (fun _ => Except.error (runtime_error "malformed request"))
        (some "?") = [] ∧
    @getOutputsJniQueries String (fun _ => Except.error (runtime_error "malformed request"))
        (some "?") = [] :=
  ⟨(C22_decode_failure allClassesFound
      (fun _ => (Except.error (runtime_error "malformed request") : Except NativeFailure String))
      (some "?") (runtime_error "malformed request") rfl).2.1,
    (C22_decode_failure allClassesFound
      (fun _ => (Except.error (runtime_error "malformed request") : Except NativeFailure String))
      (some "?") (runtime_error "malformed request") rfl).2.2.2.2⟩

theorem container_key {α : Type} (key : String) (items : List α) :
    TopLevelKey key items (container key items) := by
  unfold TopLevelKey
  cases items with
  | nil => simp [container]
  | cons a rest => simp [container]

theorem blocksContainer_eq (blocks : List MoneroBlock) :
    blocksContainer blocks = container "blocks" blocks := rfl

theorem serialized_eq_nil_iff (e : EngineHeap) (txs : List Nat) :
    (getTxsBuild e txs).serialized = [] ↔ txs = [] := by
  unfold GraphState.serialized
  rw [List.map_eq_nil_iff, (tracks_getTxsBuild e txs).blocks_eq]
  cases txs with
  | nil => simp [firstOccurrences]
  | cons t rest =>
    have hm : blockOf e t ∈ firstOccurrences ((t :: rest).map (blockOf e)) :=
      (mem_firstOccurrences _ _).2 (by simp)
    constructor
    · intro h
      rw [h] at hm
      simp at hm
    · intro h
      simp at h

/-- C23: what each collection entry point returns when the engine call succeeds is a
document that has the collection's key exactly when the collection is not empty; for an
empty collection the document has no entry at all, and an entry, when there is one, holds
the whole non-empty collection. The key is `accounts` for `getAccountsJni`, `subaddresses`
for `getSubaddressesJni`, `keyImages` for `getKeyImagesJni`, and `blocks` for the block
list built by `getTxsJni`, `getTransfersJni`, `getOutputsJni` and `sendSplitJni` and for
that of `sweepDustJni`, which is empty exactly when no transaction was swept; the block
lists of `getTxsJni` and `getTransfersJni` are empty exactly when the engine returned
nothing. -/
theorem C23_top_level_key :
    (∀ (Account : Type) (getAccounts : Bool → String → Except NativeFailure (List Account))
        (includeSubaddresses : Bool) (jtag : Option String) (accounts : List Account),
      getAccounts includeSubaddresses (jtag.getD "") = Except.ok accounts →
      ∃ doc, getAccountsJni getAccounts includeSubaddresses jtag = Outcome.returned doc ∧
        TopLevelKey "accounts" accounts doc) ∧
    (∀ (Subaddress : Type)
        (getSubaddresses : Int → List Nat → Except NativeFailure (List Subaddress))
        (accountIdx : Int) (jsubaddressIndices : Option (List Int))
        (subaddresses : List Subaddress),
      getSubaddresses accountIdx
          ((jsubaddressIndices.getD []).map (fun i => (i % 4294967296).toNat))
        = Except.ok subaddresses →
      ∃ doc, getSubaddressesJni getSubaddresses accountIdx jsubaddressIndices
          = Outcome.returned doc ∧
        TopLevelKey "subaddresses" subaddresses doc) ∧
    (∀ (KeyImage : Type) (keyImages : List KeyImage),
      ∃ doc, getKeyImagesJni (Except.ok keyImages) = Outcome.returned doc ∧
        TopLevelKey "keyImages" keyImages doc) ∧
    (∀ (Req : Type) (findClass : String → Bool)
        (deserialize : String → Except NativeFailure Req)
        (getTxs : Req → Except NativeFailure (EngineHeap × List Nat))
        (jtxRequest : Option String) (req : Req) (r : EngineHeap × List Nat),
      deserialize (jtxRequest.getD "") = Except.ok req → getTxs req = Except.ok r →
      ∃ doc, getTxsJni findClass deserialize getTxs jtxRequest = Outcome.returned doc ∧
        TopLevelKey "blocks" (getTxsBuild r.1 r.2).serialized doc ∧
        ("blocks" ∈ doc.map Prod.fst ↔ r.2 ≠ [])) ∧
    (∀ (Req : Type) (findClass : String → Bool)
        (deserialize : String → Except NativeFailure Req)
        (getTransfers : Req → Except NativeFailure (EngineHeap × List MoneroTransfer))
        (jtransferRequest : Option String) (req : Req)
        (r : EngineHeap × List MoneroTransfer),
      deserialize (jtransferRequest.getD "") = Except.ok req →
      getTransfers req = Except.ok r →
      ∃ doc, getTransfersJni findClass deserialize getTransfers jtransferRequest
          = Outcome.returned doc ∧
        TopLevelKey "blocks" (getTransfersBuild r.1 r.2).serialized doc ∧
        ("blocks" ∈ doc.map Prod.fst ↔ r.2 ≠ [])) ∧
    (∀ (Req : Type) (deserialize : String → Except NativeFailure Req)
        (getOutputs : Req → Except NativeFailure (EngineHeap × List MoneroOutputWallet))
        (joutputRequest : Option String) (req : Req)
        (r : EngineHeap × List MoneroOutputWallet) (blocks : List MoneroBlock),
      deserialize (joutputRequest.getD "") = Except.ok req →
      getOutputs req = Except.ok r → getOutputsBuild r.1 r.2 = Except.ok blocks →
      ∃ doc, getOutputsJni deserialize getOutputs joutputRequest = Outcome.returned doc ∧
        TopLevelKey "blocks" blocks doc) ∧
    (∀ (Req : Type) (findClass : String → Bool)
        (deserialize : String → Except NativeFailure Req)
        (sendSplit : Req → Except NativeFailure (EngineHeap × List Nat))
        (jsendRequest : Option String) (req : Req) (r : EngineHeap × List Nat),
      deserialize (jsendRequest.getD "") = Except.ok req → sendSplit req = Except.ok r →
      ∃ doc, sendSplitJni findClass deserialize sendSplit jsendRequest
          = Outcome.returned doc ∧
        TopLevelKey "blocks" (sendSplitBuild r.1 r.2).blocks doc) ∧
    (∀ (findClass : String → Bool) (sweepDust : Bool → Except NativeFailure (List Nat))
        (doNotRelay : Bool) (txs : List Nat),
      sweepDust doNotRelay = Except.ok txs →
      ∃ doc, sweepDustJni findClass sweepDust doNotRelay = Outcome.returned doc ∧
        TopLevelKey "blocks" (sweepDustBlocks txs) doc ∧
        ("blocks" ∈ doc.map Prod.fst ↔ txs ≠ []) ∧
        (txs = [] → doc = []) ∧
        (txs ≠ [] → doc = [("blocks", [{ MoneroBlock.default with txs := txs }])])) := by
  refine ⟨?_, ?_, ?_, ?_, ?_, ?_, ?_, ?_⟩
  · intro Account getAccounts includeSubaddresses jtag accounts h
    exact ⟨getAccountsJniDocument accounts, by simp [getAccountsJni, h],
      container_key "accounts" accounts⟩
  · intro Subaddress getSubaddresses accountIdx jsubaddressIndices subaddresses h
    exact ⟨getSubaddressesJniDocument subaddresses, by simp [getSubaddressesJni, h],
      container_key "subaddresses" subaddresses⟩
  · intro KeyImage keyImages
    exact ⟨getKeyImagesJniDocument keyImages, rfl, container_key "keyImages" keyImages⟩
  · intro Req findClass deserialize getTxs jtxRequest req r h1 h2
    refine ⟨blocksContainer (getTxsBuild r.1 r.2).serialized, by simp [getTxsJni, h1, h2],
      container_key "blocks" _, ?_⟩
    rw [blocksContainer_eq, (container_key "blocks" (getTxsBuild r.1 r.2).serialized).1, Ne,
      serialized_eq_nil_iff]
  · intro Req findClass deserialize getTransfers jtransferRequest req r h1 h2
    refine ⟨blocksContainer (getTransfersBuild r.1 r.2).serialized,
      by simp [getTransfersJni, h1, h2], container_key "blocks" _, ?_⟩
    rw [blocksContainer_eq,
      (container_key "blocks" (getTransfersBuild r.1 r.2).serialized).1, Ne,
      getTransfersBuild_eq, serialized_eq_nil_iff, List.map_eq_nil_iff]
  · intro Req deserialize getOutputs joutputRequest req r blocks h1 h2 h3
    exact ⟨blocksContainer blocks, by simp [getOutputsJni, h1, h2, h3],
      container_key "blocks" blocks⟩
  · intro Req findClass deserialize sendSplit jsendRequest req r h1 h2
    exact ⟨blocksContainer (sendSplitBuild r.1 r.2).blocks, by simp [sendSplitJni, h1, h2],
      container_key "blocks" _⟩
  · intro findClass sweepDust doNotRelay txs h
    refine ⟨sweepDustJniDocument txs, by simp [sweepDustJni, h], container_key "blocks" _,
      ?_, ?_, ?_⟩
    · cases txs with
      | nil => simp [sweepDustJniDocument, sweepDustBlocks, blocksContainer]
      | cons a rest => simp [sweepDustJniDocument, sweepDustBlocks, blocksContainer]
    · intro h0
      subst h0
      rfl
    · intro h0
      cases txs with
      | nil => exact absurd rfl h0
      | cons a rest => rfl

/-- Witness of C23: the document that `getTxsJni` returns for the scenario's query has the
one key `blocks`; the document that `getKeyImagesJni` returns for an empty key-image list
has no entry. -/
theorem C23_top_level_key_witness :
    (∃ doc, getTxsJni allClassesFound (fun _ => (Except.ok () : Except NativeFailure Unit))
          (fun _ => Except.ok (scenarioHeap, [1, 2, 3])) none = Outcome.returned doc ∧
        "blocks" ∈ doc.map Prod.fst) ∧
    (∃ doc, getKeyImagesJni (Except.ok ([] : List Nat)) = Outcome.returned doc ∧ doc = []) := by
  constructor
  · obtain ⟨doc, h1, _, h3⟩ := C23_top_level_key.2.2.2.1 Unit allClassesFound
      (fun _ => Except.ok ()) (fun _ => Except.ok (scenarioHeap, [1, 2, 3])) none ()
      (scenarioHeap, [1, 2, 3]) rfl rfl
    exact ⟨doc, h1, h3.2 (by decide)⟩
  · obtain ⟨doc, h1, h2⟩ := C23_top_level_key.2.2.1 Nat []
    exact ⟨doc, h1, h2.2.1 rfl⟩

/-! ## Claims about callback arguments, the two loops and the translator's order -/

theorem toJlong_small (h : Nat) (hlt : h < 2 ^ 63) : toJlong h = (h : Int) := by
  have h64 : h % 2 ^ 64 = h := Nat.mod_eq_of_lt (by omega)
  unfold toJlong
  rw [h64, if_pos hlt]
  rfl

theorem toJlong_large (h : Nat) (hge : 2 ^ 63 ≤ h) (hlt : h < 2 ^ 64) :
    toJlong h = (h : Int) - 2 ^ 64 := by
  have h64 : h % 2 ^ 64 = h := Nat.mod_eq_of_lt hlt
  unfold toJlong
  rw [h64, if_neg (by omega)]
  rfl

/-- C24: on an installed adapter whose thread attaches, `onNewBlock` calls the host
callback once, with the block height, and `onSyncProgress` calls it once, with height,
start height, end height, the fraction and the message in that order; a height below 2^63
arrives unchanged, a height from 2^63 up to 2^64 - 1 arrives as itself minus 2^64. -/
theorem C24_callback_arguments (l : WalletJniListener) (t : JvmThread) (jl : Nat)
    (hl : l.jlistener = some jl) (hok : (attachJVM t).envStat ≠ JNI_ERR) :
    (∀ (height : Nat) (hostThrows : Bool),
      (l.onNewBlock t height hostThrows).2.filter JniEvent.isCall
        = [JniEvent.callVoidMethod jl "onNewBlock" "(J)V" [JValue.long (toJlong height)]]) ∧
    (∀ (height startHeight endHeight percentDone : Nat) (message : String) (hostThrows : Bool),
      (l.onSyncProgress t height startHeight endHeight percentDone message
          hostThrows).2.filter JniEvent.isCall
        = [JniEvent.callVoidMethod jl "onSyncProgress" "(JJJDLjava/lang/String;)V"
            [JValue.long (toJlong height), JValue.long (toJlong startHeight),
             JValue.long (toJlong endHeight), JValue.double percentDone,
             JValue.string message]]) ∧
    (∀ h : Nat, h < 2 ^ 63 → toJlong h = (h : Int)) ∧
    (∀ h : Nat, 2 ^ 63 ≤ h → h < 2 ^ 64 → toJlong h = (h : Int) - 2 ^ 64) := by
  refine ⟨?_, ?_, toJlong_small, toJlong_large⟩
  · intro height hostThrows
    obtain ⟨a, v, r, p⟩ := t
    obtain ⟨jl0⟩ := l
    simp only at hl
    subst hl
    by_cases hr : r = 0
    · subst hr
      cases a <;> cases v <;> cases p <;> cases hostThrows <;>
        simp_all [WalletJniListener.onNewBlock, attachJVM, detachJVM, JvmThread.GetEnv,
          JvmThread.AttachCurrentThread, JvmThread.DetachCurrentThread, JNI_OK, JNI_ERR,
          JNI_EDETACHED, JNI_EVERSION, JniEvent.isCall]
    · cases a <;> cases v <;> cases p <;> cases hostThrows <;>
        simp_all [WalletJniListener.onNewBlock, attachJVM, detachJVM, JvmThread.GetEnv,
          JvmThread.AttachCurrentThread, JvmThread.DetachCurrentThread, JNI_OK, JNI_ERR,
          JNI_EDETACHED, JNI_EVERSION, JniEvent.isCall]
  · intro height startHeight endHeight percentDone message hostThrows
    obtain ⟨a, v, r, p⟩ := t
    obtain ⟨jl0⟩ := l
    simp only at hl
    subst hl
    by_cases hr : r = 0
    · subst hr
      cases a <;> cases v <;> cases p <;> cases hostThrows <;>
        simp_all [WalletJniListener.onSyncProgress, attachJVM, detachJVM, JvmThread.GetEnv,
          JvmThread.AttachCurrentThread, JvmThread.DetachCurrentThread, JNI_OK, JNI_ERR,
          JNI_EDETACHED, JNI_EVERSION, JniEvent.isCall]
    · cases a <;> cases v <;> cases p <;> cases hostThrows <;>
        simp_all [WalletJniListener.onSyncProgress, attachJVM, detachJVM, JvmThread.GetEnv,
          JvmThread.AttachCurrentThread, JvmThread.DetachCurrentThread, JNI_OK, JNI_ERR,
          JNI_EDETACHED, JNI_EVERSION, JniEvent.isCall]

/-- Witness of C24: the height 2^64 - 1 arrives as -1, the height 100 as 100. -/
theorem C24_callback_arguments_witness :
    (((WalletJniListener.create 9).onNewBlock nativeThread (2 ^ 64 - 1) false).2.filter
        JniEvent.isCall
      = [JniEvent.callVoidMethod 9 "onNewBlock" "(J)V" [JValue.long (toJlong (2 ^ 64 - 1))]]) ∧
    toJlong (2 ^ 64 - 1) = -1 ∧ toJlong 100 = 100 :=
  ⟨(C24_callback_arguments (WalletJniListener.create 9) nativeThread 9 rfl (by decide)).1
      (2 ^ 64 - 1) false,
    by decide, by decide⟩

/-- C25: the loop of `getTransfersJni` ends in the same state as the loop of `getTxsJni`
run on the transfers' transactions: same block list, same placeholder block, same heap,
hence the same serialised blocks and the same transactions in the placeholder block. -/
theorem C25_transfers_build_is_txs_build (e : EngineHeap) (transfers : List MoneroTransfer) :
    getTransfersBuild e transfers = getTxsBuild e (transfers.map MoneroTransfer.tx) ∧
    (getTransfersBuild e transfers).blocks
      = (getTxsBuild e (transfers.map MoneroTransfer.tx)).blocks ∧
    (getTransfersBuild e transfers).unconfirmedBlock
      = (getTxsBuild e (transfers.map MoneroTransfer.tx)).unconfirmedBlock ∧
    (getTransfersBuild e transfers).serialized
      = (getTxsBuild e (transfers.map MoneroTransfer.tx)).serialized ∧
    (∀ p, ((getTransfersBuild e transfers).heap.block p).txs
      = ((getTxsBuild e (transfers.map MoneroTransfer.tx)).heap.block p).txs) := by
  have h := getTransfersBuild_eq e transfers
  refine ⟨h, ?_, ?_, ?_, ?_⟩
  · rw [h]
  · rw [h]
  · rw [h]
  · intro p; rw [h]

/-- C27: the translator takes the first clause that matches, in the order allocation
failure, I/O failure, standard exception, anything else: an allocation failure raises
OutOfMemoryError whatever else it is, an I/O failure that is also a standard exception
raises IOException, and when the three classes are found exactly one host error is raised
for every failure, of the type that belongs to the first matching category. -/
theorem C27_first_match_wins (findClass : String → Bool) (ex : NativeFailure)
    (hOomCls : findClass "java/lang/OutOfMemoryError" = true)
    (hIoCls : findClass "java/io/IOException" = true)
    (hExcCls : findClass "java/lang/Exception" = true) :
    (ex.isBadAlloc = true →
      hostErrorType findClass ex = some "java/lang/OutOfMemoryError") ∧
    (ex.isBadAlloc = false → ex.isIosFailure = true → ex.isStdException = true →
      rethrow_cpp_exception_as_java_exception findClass ex
        = some { className := "java/io/IOException", message := ex.what }) ∧
    (∃! thrown, rethrow_cpp_exception_as_java_exception findClass ex = some thrown) ∧
    hostErrorType findClass ex
      = some (match specCategory ex with
        | FailureCategory.ResourceExhaustion => "java/lang/OutOfMemoryError"
        | FailureCategory.IOFailure => "java/io/IOException"
        | _ => "java/lang/Exception") := by
  obtain ⟨a, b, c, w⟩ := ex
  cases a <;> cases b <;> cases c <;>
    simp [hostErrorType, rethrow_cpp_exception_as_java_exception, specCategory, hOomCls, hIoCls,
      hExcCls, ExistsUnique]

/-- Witness of C27: an I/O failure, which is a standard exception too, raises IOException. -/
theorem C27_first_match_wins_witness :
    rethrow_cpp_exception_as_java_exception allClassesFound
        { isBadAlloc := false, isIosFailure := true, isStdException := true, what := "disk" }
      = some { className := "java/io/IOException", message := "disk" } :=
  (C27_first_match_wins allClassesFound
    { isBadAlloc := false, isIosFailure := true, isStdException := true, what := "disk" }
    rfl rfl rfl).2.1 rfl rfl rfl

/-- C28: the runtime reports `JNI_OK`, `JNI_EDETACHED` or `JNI_EVERSION`; `attachJVM` returns
`JNI_ERR` exactly when the report is `JNI_EVERSION` or it is `JNI_EDETACHED` and attaching
fails, otherwise it returns the report unchanged; it calls `AttachCurrentThread` exactly in
the `JNI_EDETACHED` case, once, and leaves the thread untouched in the other cases. -/
theorem C28_attachJVM_status (t : JvmThread) :
    (t.GetEnv = JNI_OK ∨ t.GetEnv = JNI_EDETACHED ∨ t.GetEnv = JNI_EVERSION) ∧
    ((attachJVM t).envStat = JNI_ERR
      ↔ (t.GetEnv = JNI_EVERSION ∨ (t.GetEnv = JNI_EDETACHED ∧ t.attachResult ≠ 0))) ∧
    ((attachJVM t).envStat ≠ JNI_ERR → (attachJVM t).envStat = t.GetEnv) ∧
    (t.GetEnv = JNI_EDETACHED →
      (attachJVM t).events = [JniEvent.attachCurrentThread t.attachResult] ∧
      (attachJVM t).thread = t.AttachCurrentThread ∧
      (t.attachResult = 0 →
        (attachJVM t).envStat = JNI_EDETACHED ∧ (attachJVM t).thread.attached = true)) ∧
    (t.GetEnv ≠ JNI_EDETACHED → (attachJVM t).events = [] ∧ (attachJVM t).thread = t) := by
  obtain ⟨a, v, r, p⟩ := t
  by_cases hr : r = 0
  · subst hr
    cases a <;> cases v <;>
      simp [attachJVM, JvmThread.GetEnv, JvmThread.AttachCurrentThread, JNI_OK, JNI_ERR,
        JNI_EDETACHED, JNI_EVERSION]
  · cases a <;> cases v <;>
      simp [attachJVM, JvmThread.GetEnv, JvmThread.AttachCurrentThread, JNI_OK, JNI_ERR,
        JNI_EDETACHED, JNI_EVERSION, hr]

/-- Witness of C28: a thread the runtime does not know and attaches gets `JNI_EDETACHED`
back and is attached; one it cannot attach gets `JNI_ERR`. -/
theorem C28_attachJVM_status_witness :
    ((attachJVM nativeThread).envStat = JNI_EDETACHED ∧
      (attachJVM nativeThread).thread.attached = true) ∧
    (attachJVM unattachableThread).envStat = JNI_ERR :=
  ⟨((C28_attachJVM_status nativeThread).2.2.2.1 (by decide)).2.2 rfl,
    (C28_attachJVM_status unattachableThread).2.1.2 (Or.inr ⟨by decide, by decide⟩)⟩

/-! ## Claims about what the graph build leaves unchanged -/

theorem visitBlock_frame (s : GraphState) (t : Nat) :
    (visitBlock s t).heap = s.heap ∧ (visitBlock s t).unconfirmedBlock = s.unconfirmedBlock := by
  unfold visitBlock
  cases s.heap.txBlock t with
  | none => exact ⟨rfl, rfl⟩
  | some b => by_cases hb : b ∈ s.seenBlockPtrs <;> simp [hb]

theorem getTxs_foldl_frame (e : EngineHeap) (l : List Nat) :
    ∀ s : GraphState, s.heap = Heap.ofEngine e → s.unconfirmedBlock = none →
      (∀ t ∈ l, e.txBlock t ≠ none) →
      (l.foldl getTxsStep s).heap = Heap.ofEngine e ∧
        (l.foldl getTxsStep s).unconfirmedBlock = none := by
  induction l with
  | nil => intro s hs hu _; exact ⟨hs, hu⟩
  | cons t rest ih =>
    intro s hs hu hall
    cases hb : e.txBlock t with
    | none => exact absurd hb (hall t (List.mem_cons_self _ _))
    | some a =>
      have htx : s.heap.txBlock t = some (BlockPtr.engine a) := by
        rw [hs]; simp [Heap.ofEngine, hb]
      have hatt : attachUnconfirmed s t = s := by simp [attachUnconfirmed, htx]
      have hstep : (getTxsStep s t).heap = Heap.ofEngine e ∧
          (getTxsStep s t).unconfirmedBlock = none := by
        unfold getTxsStep
        rw [hatt, (visitBlock_frame s t).1, (visitBlock_frame s t).2]
        exact ⟨hs, hu⟩
      exact ih (getTxsStep s t) hstep.1 hstep.2
        (fun t2 h2 => hall t2 (List.mem_cons_of_mem _ h2))

theorem sendSplitStep_frame (s : SplitState) (t : Nat) (b : BlockPtr)
    (htx : s.heap.txBlock t = some b) :
    (sendSplitStep s t).heap = s.heap ∧
      (sendSplitStep s t).unconfirmedBlock = s.unconfirmedBlock := by
  unfold sendSplitStep
  simp only [htx]
  by_cases hb : b ∈ s.seenBlockPtrs <;> simp [hb]

theorem sendSplit_foldl_frame (e : EngineHeap) (l : List Nat) :
    ∀ s : SplitState, s.heap = Heap.ofEngine e → s.unconfirmedBlock = none →
      (∀ t ∈ l, e.txBlock t ≠ none) →
      (l.foldl sendSplitStep s).heap = Heap.ofEngine e ∧
        (l.foldl sendSplitStep s).unconfirmedBlock = none := by
  induction l with
  | nil => intro s hs hu _; exact ⟨hs, hu⟩
  | cons t rest ih =>
    intro s hs hu hall
    cases hb : e.txBlock t with
    | none => exact absurd hb (hall t (List.mem_cons_self _ _))
    | some a =>
      have htx : s.heap.txBlock t = some (BlockPtr.engine a) := by
        rw [hs]; simp [Heap.ofEngine, hb]
      have hstep := sendSplitStep_frame s t _ htx
      exact ih (sendSplitStep s t) (hstep.1.trans hs) (hstep.2.trans hu)
        (fun t2 h2 => hall t2 (List.mem_cons_of_mem _ h2))

theorem splitKeeps_step (e : EngineHeap) (s : SplitState) (t : Nat) (h : SplitKeeps e s) :
    SplitKeeps e (sendSplitStep s t) := by
  cases htx : s.heap.txBlock t with
  | some b =>
    have hf := sendSplitStep_frame s t b htx
    exact ⟨fun u a hu => by rw [hf.1]; exact h.txBlock_some u a hu,
      fun a => by rw [hf.1]; exact h.block_engine a,
      fun c hc => h.placeholder_fresh c (by rw [← hf.2]; exact hc)⟩
  | none =>
    have hne : ∀ a, e.txBlock t ≠ some a := by
      intro a ha
      have := h.txBlock_some t a ha
      rw [htx] at this
      exact Option.noConfusion this
    cases hu : s.unconfirmedBlock with
    | none =>
      refine ⟨?_, ?_, ?_⟩
      · intro u a hua
        have hut : u ≠ t := fun hc => hne a (hc ▸ hua)
        have := h.txBlock_some u a hua
        unfold sendSplitStep
        simp only [htx, hu, Heap.pushTx, Heap.setTxBlock, Heap.newBlock, if_pos]
        by_cases hseen : BlockPtr.fresh s.heap.allocated ∈ s.seenBlockPtrs <;>
          simp [hseen, hut, this]
      · intro a
        have := h.block_engine a
        unfold sendSplitStep
        simp only [htx, hu, Heap.pushTx, Heap.setTxBlock, Heap.newBlock, if_pos]
        by_cases hseen : BlockPtr.fresh s.heap.allocated ∈ s.seenBlockPtrs <;>
          simp [hseen, this]
      · intro c hc
        refine ⟨s.heap.allocated, ?_⟩
        unfold sendSplitStep at hc
        simp only [htx, hu, Heap.pushTx, Heap.setTxBlock, Heap.newBlock, if_pos] at hc
        by_cases hseen : BlockPtr.fresh s.heap.allocated ∈ s.seenBlockPtrs <;>
          simp [hseen] at hc <;> exact hc.symm
    | some ub =>
      obtain ⟨k, hk⟩ := h.placeholder_fresh ub hu
      subst hk
      refine ⟨?_, ?_, ?_⟩
      · intro u a hua
        have hut : u ≠ t := fun hc => hne a (hc ▸ hua)
        have := h.txBlock_some u a hua
        unfold sendSplitStep
        simp only [htx, hu, Heap.pushTx, Heap.setTxBlock, if_pos]
        by_cases hseen : BlockPtr.fresh k ∈ s.seenBlockPtrs <;>
          simp [hseen, hut, this]
      · intro a
        have := h.block_engine a
        unfold sendSplitStep
        simp only [htx, hu, Heap.pushTx, Heap.setTxBlock, if_pos]
        by_cases hseen : BlockPtr.fresh k ∈ s.seenBlockPtrs <;>
          simp [hseen, this]
      · intro c hc
        refine ⟨k, ?_⟩
        unfold sendSplitStep at hc
        simp only [htx, hu, Heap.pushTx, Heap.setTxBlock, if_pos] at hc
        by_cases hseen : BlockPtr.fresh k ∈ s.seenBlockPtrs <;>
          simp [hseen] at hc <;> exact hc.symm

theorem splitKeeps_foldl (e : EngineHeap) (l : List Nat) :
    ∀ s : SplitState, SplitKeeps e s → SplitKeeps e (l.foldl sendSplitStep s) := by
  induction l with
  | nil => intro s h; exact h
  | cons t rest ih => intro s h; exact ih _ (splitKeeps_step e s t h)

theorem splitKeeps_build (e : EngineHeap) (txs : List Nat) :
    SplitKeeps e (sendSplitBuild e txs) := by
  apply splitKeeps_foldl
  refine ⟨?_, ?_, ?_⟩
  · intro t a ha
    simp [SplitState.init, Heap.ofEngine, ha]
  · intro a; rfl
  · intro b hb
    simp [SplitState.init] at hb

theorem tracks_keeps {e : EngineHeap} {l : List Nat} {s : GraphState} (h : Tracks e l s) :
    (∀ t a, e.txBlock t = some a → s.heap.txBlock t = some (BlockPtr.engine a)) ∧
    (∀ a, s.heap.block (BlockPtr.engine a) = e.block a) := by
  refine ⟨?_, h.block_engine⟩
  intro t a ha
  by_cases ht : t ∈ l
  · rw [h.txBlock_mem t ht]; simp [blockOf, ha]
  · rw [h.txBlock_not_mem t ht, ha]; rfl

/-- C26: when every transaction of the input has a block, the loops of `getTxsJni`,
`getTransfersJni` and `sendSplitJni` end with the heap they started from (no block
allocated, no transaction's block and no block's transactions changed) and without
placeholder block. For any input, a transaction that had a block still points to it after
each of the three loops, and every engine block is as the engine gave it. -/
theorem C26_only_blockless_modified (e : EngineHeap) (txs : List Nat)
    (transfers : List MoneroTransfer) :
    ((∀ t ∈ txs, e.txBlock t ≠ none) →
      (getTxsBuild e txs).heap = Heap.ofEngine e ∧
      (getTxsBuild e txs).unconfirmedBlock = none ∧
      (sendSplitBuild e txs).heap = Heap.ofEngine e ∧
      (sendSplitBuild e txs).unconfirmedBlock = none) ∧
    ((∀ tr ∈ transfers, e.txBlock tr.tx ≠ none) →
      (getTransfersBuild e transfers).heap = Heap.ofEngine e ∧
      (getTransfersBuild e transfers).unconfirmedBlock = none) ∧
    (∀ t a, e.txBlock t = some a →
      (getTxsBuild e txs).heap.txBlock t = some (BlockPtr.engine a) ∧
      (getTransfersBuild e transfers).heap.txBlock t = some (BlockPtr.engine a) ∧
      (sendSplitBuild e txs).heap.txBlock t = some (BlockPtr.engine a)) ∧
    (∀ a,
      (getTxsBuild e txs).heap.block (BlockPtr.engine a) = e.block a ∧
      (getTransfersBuild e transfers).heap.block (BlockPtr.engine a) = e.block a ∧
      (sendSplitBuild e txs).heap.block (BlockPtr.engine a) = e.block a) := by
  have hT := tracks_keeps (tracks_getTxsBuild e txs)
  have hR := tracks_keeps (tracks_getTxsBuild e (transfers.map MoneroTransfer.tx))
  rw [← getTransfersBuild_eq] at hR
  have hS := splitKeeps_build e txs
  refine ⟨?_, ?_, ?_, ?_⟩
  · intro hall
    have h1 := getTxs_foldl_frame e txs (GraphState.init e) rfl rfl hall
    have h2 := sendSplit_foldl_frame e txs (SplitState.init e) rfl rfl hall
    exact ⟨h1.1, h1.2, h2.1, h2.2⟩
  · intro hall
    rw [getTransfersBuild_eq]
    refine getTxs_foldl_frame e _ (GraphState.init e) rfl rfl ?_
    intro t ht
    obtain ⟨tr, htr, rfl⟩ := List.mem_map.1 ht
    exact hall tr htr
  · intro t a ha
    exact ⟨hT.1 t a ha, hR.1 t a ha, hS.txBlock_some t a ha⟩
  · intro a
    exact ⟨hT.2 a, hR.2 a, hS.block_engine a⟩

/-- Witness of C26: the transactions 1 and 2 of the scenario both have a block; the three
loops leave the heap as it was. -/
theorem C26_only_blockless_modified_witness :
    (getTxsBuild scenarioHeap [1, 2]).heap = Heap.ofEngine scenarioHeap ∧
    (getTxsBuild scenarioHeap [1, 2]).unconfirmedBlock = none ∧
    (sendSplitBuild scenarioHeap [1, 2]).heap = Heap.ofEngine scenarioHeap ∧
    (sendSplitBuild scenarioHeap [1, 2]).unconfirmedBlock = none :=
  (C26_only_blockless_modified scenarioHeap [1, 2] []).1 (by decide)

/-! ## Claims about `moveToJni` and `getDaemonConnectionJni` -/

/-- C29: with an absent path `moveToJni` gives the empty text as password to the engine
whatever password the host supplies; with a path it gives the supplied password, and has
no defined result when the password is absent. -/
theorem C29_password_depends_on_path :
    moveToJniArguments none (some "secret") = some ("", "") ∧
    (∀ jpassword : Option String, moveToJniArguments none jpassword = some ("", "")) ∧
    (∀ path password : String,
      moveToJniArguments (some path) (some password) = some (path, password)) ∧
    (∀ path : String, moveToJniArguments (some path) none = none) ∧
    moveToJni allClassesFound
        (fun _ password =>
          if password = "secret" then Except.ok () else Except.error (runtime_error "wrong password"))
        none (some "secret")
      = some (Outcome.translated
          (some { className := "java/lang/Exception", message := "wrong password" })) := by
  refine ⟨rfl, fun _ => rfl, fun _ _ => rfl, fun _ => rfl, ?_⟩
  simp [moveToJni, moveToJniArguments, rethrow_cpp_exception_as_java_exception, runtime_error,
    allClassesFound]

/-- C30: `getDaemonConnectionJni` returns no array when the engine has no daemon connection;
otherwise it returns three entries, for uri, username and password in this order, each null
exactly when the field is empty and else equal to the field. -/
theorem C30_daemon_connection_array :
    getDaemonConnectionJni none = none ∧
    (∀ c : MoneroRpcConnection,
      getDaemonConnectionJni (some c)
        = some [if c.uri = "" then none else some c.uri,
                if c.username = "" then none else some c.username,
                if c.password = "" then none else some c.password]) ∧
    (∀ c : MoneroRpcConnection, ∃ vals, getDaemonConnectionJni (some c) = some vals ∧
      vals.length = 3 ∧
      (vals.get? 0 = some none ↔ c.uri = "") ∧
      (vals.get? 1 = some none ↔ c.username = "") ∧
      (vals.get? 2 = some none ↔ c.password = "") ∧
      (c.uri ≠ "" → vals.get? 0 = some (some c.uri)) ∧
      (c.username ≠ "" → vals.get? 1 = some (some c.username)) ∧
      (c.password ≠ "" → vals.get? 2 = some (some c.password))) := by
  have hform : ∀ c : MoneroRpcConnection,
      getDaemonConnectionJni (some c)
        = some [if c.uri = "" then none else some c.uri,
                if c.username = "" then none else some c.username,
                if c.password = "" then none else some c.password] := by
    intro c
    by_cases h1 : c.uri = "" <;> by_cases h2 : c.username = "" <;>
      by_cases h3 : c.password = "" <;>
      simp [getDaemonConnectionJni, h1, h2, h3]
  refine ⟨rfl, hform, ?_⟩
  intro c
  refine ⟨_, hform c, ?_⟩
  by_cases h1 : c.uri = "" <;> by_cases h2 : c.username = "" <;>
    by_cases h3 : c.password = "" <;> simp [h1, h2, h3]

/-- Witness of C30: a connection with a uri and a username but no password. -/
theorem C30_daemon_connection_array_witness :
    getDaemonConnectionJni
        (some { uri := "http://localhost:38081", username := "user", password := "" })
      = some [some "http://localhost:38081", some "user", none] := by
  have h := C30_daemon_connection_array.2.1
    { uri := "http://localhost:38081", username := "user", password := "" }
  simpa using h


end MoneroWalletJni
